import Mathlib

/-!
# Verification of the metadata-editor ingestion pipeline

Shallow embedding of the claim-relevant parts of the `metadata-editor`
repository (Python): artist fuzzy matching, filename sanitization,
destination-path collision handling, metadata read/update, and the
scanner / review-API state machine.
-/

namespace MetadataEditor

/-- Python `str.strip()` whitespace predicate. Models `\s` / `str.isspace` for
the ASCII whitespace actually exercised here; exotic Unicode spaces are out of
scope of this model. -/
def isPyWs (c : Char) : Bool := c.isWhitespace

/-- Drop characters satisfying `p` from both ends of a list
(Python `str.strip(chars)`). -/
def stripEnds (p : Char → Bool) (l : List Char) : List Char :=
  ((l.dropWhile p).reverse.dropWhile p).reverse

/-- Python `str.strip()` (no arguments): trim whitespace from both ends. -/
def pyStrip (s : String) : String := ⟨stripEnds isPyWs s.data⟩

/-! ## Model of src/app/artist_matching.py -/

/-- Models `unicodedata.normalize("NFKC", ·)`. The inputs exercised by this
development (ASCII and the Arabic letters/diacritics of the source's tables)
are NFKC-invariant, so the model is the identity on them. -/
def nfkcModel (s : String) : String := s

/-- Models `str.lower()`. Correct for ASCII; Arabic script is uncased, so the
identity behaviour of `Char.toLower` there matches Python. -/
def pyLower (s : String) : String := ⟨s.data.map Char.toLower⟩

/-- Python `str.split(" ")` (single-space separator, keeping empty pieces). -/
def splitOnSpaceAux : List Char → List Char → List String
  | [], acc => [⟨acc.reverse⟩]
  | c :: rest, acc =>
    if c = ' ' then ⟨acc.reverse⟩ :: splitOnSpaceAux rest []
    else splitOnSpaceAux rest (c :: acc)

/-- Python `str.split(" ")`. -/
def splitOnSpaces (s : String) : List String := splitOnSpaceAux s.data []

/-- Models membership of `unicodedata.category(c)[0]` in `{L, N}` (letter or
number) for the ASCII and Arabic ranges exercised by this development:
ASCII alphanumerics, Arabic letters (U+0621..U+064A, U+0671..U+06D3) and
Arabic-Indic digits (U+0660..U+0669). Everything else (punctuation, symbols)
is classified as non-L/N, as in the source. -/
def isLetterOrNumberChar (c : Char) : Bool :=
  let n := c.toNat
  (97 ≤ n && n ≤ 122) || (65 ≤ n && n ≤ 90) || (48 ≤ n && n ≤ 57) ||
  (0x621 ≤ n && n ≤ 0x64A) || (0x660 ≤ n && n ≤ 0x669) || (0x671 ≤ n && n ≤ 0x6D3)

/-- Membership in the source's Arabic diacritics regex
`[ؐ-ًؚ-ٰٟۖ-ۭ]`. -/
def isArabicDiacritic (c : Char) : Bool :=
  let n := c.toNat
  (0x610 ≤ n && n ≤ 0x61A) || (0x64B ≤ n && n ≤ 0x65F) || n = 0x670 ||
  (0x6D6 ≤ n && n ≤ 0x6ED)

/-- The source's `str.maketrans` tables: alef variants U+0623/U+0625/U+0622/
U+0671 to bare alef U+0627, alef maksura U+0649 to yeh U+064A, waw-hamza
U+0624 to waw U+0648, yeh-hamza U+0626 to yeh U+064A; with
`collapseTaMarbuta` also teh marbuta U+0629 to heh U+0647. -/
def arabicTranslateChar (collapseTaMarbuta : Bool) (c : Char) : Char :=
  let n := c.toNat
  if n = 0x623 || n = 0x625 || n = 0x622 || n = 0x671 then Char.ofNat 0x627
  else if n = 0x649 then Char.ofNat 0x64A
  else if n = 0x624 then Char.ofNat 0x648
  else if n = 0x626 then Char.ofNat 0x64A
  else if collapseTaMarbuta && n = 0x629 then Char.ofNat 0x647
  else c

/-- `_normalize_punctuation_to_space`: keep letters/numbers, map whitespace
and everything else to a single space. -/
def normalizePunctuationToSpace (text : List Char) : List Char :=
  text.map fun c =>
    if c.isWhitespace then ' '
    else if isLetterOrNumberChar c then c
    else ' '

/-- The regex substitution `\s+` to a single space, folded left to right.
`prevWs` records whether the previous character was part of a whitespace run. -/
def collapseWsAux : Bool → List Char → List Char
  | _, [] => []
  | prevWs, c :: rest =>
    if c.isWhitespace then
      if prevWs then collapseWsAux true rest else ' ' :: collapseWsAux true rest
    else c :: collapseWsAux false rest

/-- `normalize_artist_name(value, collapse_ta_marbuta)`: NFKC, strip, lower,
drop tatweel (U+0640), drop Arabic diacritics, translate letter variants,
punctuation to spaces, collapse whitespace, strip. -/
def normalizeArtistName (collapseTaMarbuta : Bool) (value : String) : String :=
  if value = "" then ""
  else
    let t0 := pyLower (pyStrip (nfkcModel value))
    let t1 := t0.data.filter fun c => c.toNat ≠ 0x640
    let t2 := t1.filter fun c => !(isArabicDiacritic c)
    let t3 := t2.map (arabicTranslateChar collapseTaMarbuta)
    let t4 := normalizePunctuationToSpace t3
    let t5 := collapseWsAux false t4
    ⟨stripEnds isPyWs t5⟩

/-- `ArtistNameKey`: normalized forms used for matching. -/
structure ArtistNameKey where
  original : String
  normalized : String
  tokens : List String
  unspaced : String
deriving DecidableEq, Repr

/-- `build_artist_name_key(value)`. -/
def buildArtistNameKey (value : String) : ArtistNameKey :=
  let original := pyStrip value
  let normalized := normalizeArtistName true original
  let tokens := (splitOnSpaces normalized).filter (· != "")
  let unspaced := String.join tokens
  { original := original, normalized := normalized, tokens := tokens,
    unspaced := unspaced }


/-! ### Model of difflib.SequenceMatcher (stdlib dependency of `_sequence_score`)

`SequenceMatcher(None, left, right).ratio()` with `isjunk=None` and
`autojunk=True`, as used by the source. With no junk the two junk-extension
while loops of `find_longest_match` are no-ops and are omitted; the
`get_matching_blocks` sort/merge normalization preserves the sum of block
sizes, which is all `ratio` consumes, so blocks are collected recursively. -/

/-- Lookup in a `Char`-keyed association list (`b2j.get(ch, [])`). -/
def alGetIdx (m : List (Char × List Nat)) (c : Char) : List Nat :=
  match m.find? (fun e => e.1 == c) with
  | some e => e.2
  | none => []

/-- Append index `j` to the entry of `c` (`b2j.setdefault(elt, []).append(j)`). -/
def alAddIdx : List (Char × List Nat) → Char → Nat → List (Char × List Nat)
  | [], c, j => [(c, [j])]
  | e :: rest, c, j =>
    if e.1 == c then (e.1, e.2 ++ [j]) :: rest else e :: alAddIdx rest c j

/-- `__chain_b`: map each element of `b` to its ascending list of indices. -/
def buildB2jAll (b : List Char) : List (Char × List Nat) :=
  (b.enum.foldl (fun m p => alAddIdx m p.2 p.1) [])

/-- `__chain_b` with autojunk: for `len(b) >= 200` drop popular elements
(those with more than `len(b) // 100 + 1` occurrences). -/
def buildB2j (b : List Char) : List (Char × List Nat) :=
  let all := buildB2jAll b
  if 200 ≤ b.length then
    all.filter (fun e => e.2.length ≤ b.length / 100 + 1)
  else all

/-- `j2len.get(j, 0)`. -/
def j2lenGet (m : List (Nat × Nat)) (j : Nat) : Nat :=
  match m.find? (fun e => e.1 == j) with
  | some e => e.2
  | none => 0

/-- `newj2len[j] = k`. -/
def j2lenSet : List (Nat × Nat) → Nat → Nat → List (Nat × Nat)
  | [], j, k => [(j, k)]
  | e :: rest, j, k =>
    if e.1 == j then (j, k) :: rest else e :: j2lenSet rest j k

/-- Inner loop of `find_longest_match` over the index list of `a[i]`:
skip `j < blo` (continue), stop at `j >= bhi` (break), otherwise extend the
diagonal run ending at `j` and track the best block. Returns the new
`j2len` dictionary and the updated `(besti, bestj, bestsize)`. -/
def flmInner (j2len : List (Nat × Nat)) (blo bhi i : Nat) :
    List Nat → List (Nat × Nat) → Nat × Nat × Nat → List (Nat × Nat) × (Nat × Nat × Nat)
  | [], newj2len, best => (newj2len, best)
  | j :: js, newj2len, best =>
    if j < blo then flmInner j2len blo bhi i js newj2len best
    else if bhi ≤ j then (newj2len, best)
    else
      let k := j2lenGet j2len (j - 1) + 1
      let newj2len := j2lenSet newj2len j k
      let best := if best.2.2 < k then (i - k + 1, j - k + 1, k) else best
      flmInner j2len blo bhi i js newj2len best

/-- Outer loop of `find_longest_match` over `i in range(alo, ahi)`;
`cnt` is the number of remaining iterations (`ahi - i`). -/
def flmOuter (a : List Char) (b2j : List (Char × List Nat)) (blo bhi : Nat) :
    Nat → Nat → List (Nat × Nat) → Nat × Nat × Nat → Nat × Nat × Nat
  | 0, _, _, best => best
  | cnt + 1, i, j2len, best =>
    let step := flmInner j2len blo bhi i (alGetIdx b2j (a.getD i ' ')) [] best
    flmOuter a b2j blo bhi cnt (i + 1) step.1 step.2

/-- The first non-junk extension loop: grow the best block leftwards while
adjacent elements match (`fuel` bounds the iterations by `besti - alo`). -/
def flmExtendFront (a b : List Char) (alo blo : Nat) :
    Nat → Nat × Nat × Nat → Nat × Nat × Nat
  | 0, best => best
  | fuel + 1, (bi, bj, bs) =>
    if alo < bi && blo < bj && (a.getD (bi - 1) ' ' == b.getD (bj - 1) ' ') then
      flmExtendFront a b alo blo fuel (bi - 1, bj - 1, bs + 1)
    else (bi, bj, bs)

/-- The second non-junk extension loop: grow the best block rightwards while
adjacent elements match. -/
def flmExtendBack (a b : List Char) (ahi bhi : Nat) :
    Nat → Nat × Nat × Nat → Nat × Nat × Nat
  | 0, best => best
  | fuel + 1, (bi, bj, bs) =>
    if bi + bs < ahi && bj + bs < bhi && (a.getD (bi + bs) ' ' == b.getD (bj + bs) ' ') then
      flmExtendBack a b ahi bhi fuel (bi, bj, bs + 1)
    else (bi, bj, bs)

/-- `find_longest_match(alo, ahi, blo, bhi)` (no junk: the junk-extension
loops are no-ops). -/
def findLongestMatch (a b : List Char) (b2j : List (Char × List Nat))
    (alo ahi blo bhi : Nat) : Nat × Nat × Nat :=
  let best := flmOuter a b2j blo bhi (ahi - alo) alo [] (alo, blo, 0)
  let best := flmExtendFront a b alo blo best.1 best
  flmExtendBack a b ahi bhi ahi best

/-- The recursive collection of `get_matching_blocks` (the source's queue
traversal collects the same blocks; order is irrelevant to `ratio`).
`fuel` bounds the recursion depth; each recursive call covers a strictly
smaller pair of ranges, so `(ahi - alo) + (bhi - blo) + 1` suffices. -/
def matchingBlocksRec (a b : List Char) (b2j : List (Char × List Nat)) :
    Nat → Nat → Nat → Nat → Nat → List (Nat × Nat × Nat)
  | 0, _, _, _, _ => []
  | fuel + 1, alo, ahi, blo, bhi =>
    let m := findLongestMatch a b b2j alo ahi blo bhi
    if m.2.2 = 0 then []
    else
      (if alo < m.1 && blo < m.2.1 then
        matchingBlocksRec a b b2j fuel alo m.1 blo m.2.1
       else []) ++
      m ::
      (if m.1 + m.2.2 < ahi && m.2.1 + m.2.2 < bhi then
        matchingBlocksRec a b b2j fuel (m.1 + m.2.2) ahi (m.2.1 + m.2.2) bhi
       else [])

/-- `SequenceMatcher(None, left, right).ratio()`:
`2 * M / T` with `M` the total size of matching blocks and
`T = len(a) + len(b)` (and `1.0` when `T = 0`). -/
def sequenceRatio (left right : String) : ℚ :=
  let a := left.data
  let b := right.data
  let blocks := matchingBlocksRec a b (buildB2j b)
    (a.length + b.length + 1) 0 a.length 0 b.length
  let msum : ℚ := ((blocks.map (fun blk => blk.2.2)).sum : ℕ)
  let total : ℕ := a.length + b.length
  if total = 0 then 1 else 2 * msum / (total : ℚ)

/-- `_sequence_score(left, right)`. -/
def sequenceScore (left right : String) : ℚ :=
  if left = "" || right = "" then 0
  else if left = right then 100
  else sequenceRatio left right * 100


/-! ### Token statistics, scoring and ranking -/

/-- `_token_stats(query_tokens, candidate_tokens)` (Python set statistics). -/
structure TokenStats where
  jaccard : ℚ
  queryCoverage : ℚ
  candidateCoverage : ℚ
deriving DecidableEq

/-- `_token_stats`: Jaccard overlap and directional coverage of token sets. -/
def tokenStats (queryTokens candidateTokens : List String) : TokenStats :=
  if queryTokens = [] || candidateTokens = [] then ⟨0, 0, 0⟩
  else
    let querySet := queryTokens.toFinset
    let candidateSet := candidateTokens.toFinset
    if querySet = ∅ || candidateSet = ∅ then ⟨0, 0, 0⟩
    else
      let intersection := (querySet ∩ candidateSet).card
      let union := (querySet ∪ candidateSet).card
      if intersection = 0 then ⟨0, 0, 0⟩
      else ⟨(intersection : ℚ) / (union : ℚ), (intersection : ℚ) / (querySet.card : ℚ),
            (intersection : ℚ) / (candidateSet.card : ℚ)⟩

/-- Round-half-to-even on an exact rational (the rounding mode of Python's
`round` on floats, transported to the ℚ model). -/
def roundHalfEven (q : ℚ) : ℤ :=
  if q - (⌊q⌋ : ℚ) < 1/2 then ⌊q⌋
  else if 1/2 < q - (⌊q⌋ : ℚ) then ⌊q⌋ + 1
  else if ⌊q⌋ % 2 = 0 then ⌊q⌋ else ⌊q⌋ + 1

theorem roundHalfEven_bounds (q : ℚ) :
    ⌊q⌋ ≤ roundHalfEven q ∧ roundHalfEven q ≤ ⌊q⌋ + 1 := by
  unfold roundHalfEven
  split_ifs <;> omega

theorem intCast_le_roundQ2 {n : ℤ} {q : ℚ} (h : (n : ℚ) ≤ q) :
    (n : ℚ) ≤ (roundHalfEven (q * 100) : ℤ) / (100 : ℚ) := by
  have h1 : (100 * n : ℤ) ≤ ⌊q * 100⌋ := by
    rw [Int.le_floor]
    push_cast
    nlinarith
  have h2 := (roundHalfEven_bounds (q * 100)).1
  rw [le_div_iff₀ (by norm_num : (0 : ℚ) < 100)]
  have : (100 * n : ℤ) ≤ roundHalfEven (q * 100) := le_trans h1 h2
  calc (n : ℚ) * 100 = ((100 * n : ℤ) : ℚ) := by push_cast; ring
    _ ≤ (roundHalfEven (q * 100) : ℚ) := by exact_mod_cast this

theorem roundQ2_le_intCast {n : ℤ} {q : ℚ} (h : q ≤ (n : ℚ)) :
    (roundHalfEven (q * 100) : ℤ) / (100 : ℚ) ≤ (n : ℚ) := by
  have hf : ⌊q * 100⌋ ≤ 100 * n := by
    have hle : q * 100 ≤ ((100 * n : ℤ) : ℚ) := by push_cast; nlinarith
    calc ⌊q * 100⌋ ≤ ⌊((100 * n : ℤ) : ℚ)⌋ := Int.floor_le_floor hle
      _ = 100 * n := Int.floor_intCast _
  have key : roundHalfEven (q * 100) ≤ 100 * n := by
    unfold roundHalfEven
    split_ifs with h₁ h₂ h₃ <;> try omega
    all_goals
      by_cases hc : ⌊q * 100⌋ = 100 * n
      case pos =>
        exfalso
        have hr0 : q * 100 - (⌊q * 100⌋ : ℚ) ≤ 0 := by
          rw [hc]
          push_cast
          nlinarith
        have hr2 : (1 : ℚ)/2 ≤ q * 100 - (⌊q * 100⌋ : ℚ) := not_lt.1 h₁
        linarith
      case neg => omega
  rw [div_le_iff₀ (by norm_num : (0 : ℚ) < 100)]
  calc (roundHalfEven (q * 100) : ℚ) ≤ ((100 * n : ℤ) : ℚ) := by exact_mod_cast key
    _ = (n : ℚ) * 100 := by push_cast; ring

/-- Python `round(q, 2)` in the ℚ model. -/
def roundQ2 (q : ℚ) : ℚ := (roundHalfEven (q * 100) : ℚ) / 100

/-- Python substring test `⟨small⟩ in ⟨big⟩` on character lists. -/
def containsSub (big small : List Char) : Bool :=
  (List.range (big.length + 1)).any fun i => (big.drop i).take small.length == small

/-- The `base_score` computation of `score_artist_similarity`: the maximum of
three weighted blends of character-sequence and token-set similarity. -/
def scoreBlend (query candidate : ArtistNameKey) : ℚ :=
  let spacedScore := sequenceScore query.normalized candidate.normalized
  let unspacedScore := sequenceScore query.unspaced candidate.unspaced
  let stats := tokenStats query.tokens candidate.tokens
  let tokenJaccard := stats.jaccard * 100
  let tokenCoverage := max stats.queryCoverage stats.candidateCoverage * 100
  max (max ((62 : ℚ)/100 * unspacedScore + (38 : ℚ)/100 * spacedScore)
           ((55 : ℚ)/100 * tokenCoverage + (45 : ℚ)/100 * tokenJaccard))
      ((70 : ℚ)/100 * unspacedScore + (30 : ℚ)/100 * tokenCoverage)

/-- The containment boost of `score_artist_similarity`: floor the score at 92
when both unspaced forms are truthy, one contains the other, and the shorter
has at least 3 characters. -/
def scoreContain (query candidate : ArtistNameKey) (b : ℚ) : ℚ :=
  if query.unspaced ≠ "" ∧ candidate.unspaced ≠ "" then
    if containsSub candidate.unspaced.data query.unspaced.data ∨
       containsSub query.unspaced.data candidate.unspaced.data then
      if 3 ≤ min query.unspaced.length candidate.unspaced.length then max b 92
      else b
    else b
  else b

/-- The final lines of `score_artist_similarity`: floor at 97 on equal
unspaced forms, clamp to [0, 100], and round to two decimals. -/
def scoreCap (query candidate : ArtistNameKey) (b : ℚ) : ℚ :=
  roundQ2 (min 100 (max 0 (if query.unspaced = candidate.unspaced then max b 97 else b)))

/-- `score_artist_similarity(query, candidate)`. -/
def scoreArtistSimilarity (query candidate : ArtistNameKey) : ℚ :=
  if query.normalized = "" || candidate.normalized = "" then 0
  else if query.normalized = candidate.normalized then 100
  else scoreCap query candidate (scoreContain query candidate (scoreBlend query candidate))

theorem roundQ2_eq (q : ℚ) : roundQ2 q = (roundHalfEven (q * 100) : ℤ) / (100 : ℚ) :=
  rfl

theorem scoreCap_nonneg (query candidate : ArtistNameKey) (b : ℚ) :
    0 ≤ scoreCap query candidate b := by
  unfold scoreCap
  rw [roundQ2_eq]
  have h := intCast_le_roundQ2 (n := 0)
    (q := min 100 (max 0 (if query.unspaced = candidate.unspaced then max b 97 else b)))
  simp only [Int.cast_zero] at h
  exact h (le_min (by norm_num) (le_max_left _ _))

theorem scoreCap_le_100 (query candidate : ArtistNameKey) (b : ℚ) :
    scoreCap query candidate b ≤ 100 := by
  unfold scoreCap
  rw [roundQ2_eq]
  have h := roundQ2_le_intCast (n := 100)
    (q := min 100 (max 0 (if query.unspaced = candidate.unspaced then max b 97 else b)))
  simp only [Int.cast_ofNat] at h
  exact_mod_cast h (by exact_mod_cast min_le_left _ _)

theorem scoreCap_ge_92 {query candidate : ArtistNameKey} {b : ℚ}
    (hb : (92 : ℚ) ≤ b) : (92 : ℚ) ≤ scoreCap query candidate b := by
  unfold scoreCap
  rw [roundQ2_eq]
  have h := intCast_le_roundQ2 (n := 92)
    (q := min 100 (max 0 (if query.unspaced = candidate.unspaced then max b 97 else b)))
  have hq : ((92 : ℤ) : ℚ) ≤
      min 100 (max 0 (if query.unspaced = candidate.unspaced then max b 97 else b)) := by
    push_cast
    refine le_min (by norm_num) (le_max_of_le_right ?_)
    split_ifs
    · exact le_trans hb (le_max_left _ _)
    · exact hb
  exact_mod_cast h hq

theorem scoreCap_ge_97 {query candidate : ArtistNameKey} {b : ℚ}
    (h : query.unspaced = candidate.unspaced) :
    (97 : ℚ) ≤ scoreCap query candidate b := by
  unfold scoreCap
  rw [roundQ2_eq, if_pos h]
  have h97 := intCast_le_roundQ2 (n := 97)
    (q := min 100 (max 0 (max b 97)))
  simp only [Int.cast_ofNat] at h97
  exact_mod_cast h97 (by
    refine le_min (by norm_num) (le_max_of_le_right ?_)
    exact_mod_cast le_max_right b 97)

theorem scoreContain_ge_92 {query candidate : ArtistNameKey} {b : ℚ}
    (hsub : containsSub candidate.unspaced.data query.unspaced.data ∨
      containsSub query.unspaced.data candidate.unspaced.data)
    (hlen : 3 ≤ min query.unspaced.length candidate.unspaced.length)
    (hq : query.unspaced ≠ "") (hc : candidate.unspaced ≠ "") :
    (92 : ℚ) ≤ scoreContain query candidate b := by
  unfold scoreContain
  rw [if_pos ⟨hq, hc⟩, if_pos hsub, if_pos hlen]
  exact le_max_right _ _

/-- An element of the `candidates` iterable of `rank_artist_candidates`
(a Python dict with optional "name" and "track_count" entries). -/
structure ArtistCandidate where
  name : Option String
  trackCount : Option Int
deriving DecidableEq, Repr

/-- A row of the `ranked` list built by `rank_artist_candidates`. -/
structure RankedRow where
  name : String
  score : ℚ
  trackCount : Int
  normalizedName : String
deriving DecidableEq, Repr

/-- Three-way comparison in a linear order. -/
def cmpLin {α : Type} [LinearOrder α] (a b : α) : Ordering :=
  if a < b then .lt else if b < a then .gt else .eq

theorem thenEqEq (a b : Ordering) : a.then b = .eq ↔ a = .eq ∧ b = .eq := by
  cases a <;> simp [Ordering.then]

theorem thenEqLt (a b : Ordering) :
    a.then b = .lt ↔ a = .lt ∨ (a = .eq ∧ b = .lt) := by
  cases a <;> simp [Ordering.then]

theorem cmpLin_eq {α : Type} [LinearOrder α] {a b : α} (h : cmpLin a b = .eq) :
    a = b := by
  unfold cmpLin at h
  split_ifs at h with h₁ h₂
  exact le_antisymm (not_lt.1 h₂) (not_lt.1 h₁)

theorem cmpLin_swap {α : Type} [LinearOrder α] (a b : α) :
    cmpLin b a = (cmpLin a b).swap := by
  unfold cmpLin
  rcases lt_trichotomy a b with h | h | h
  · simp [h, asymm h, Ordering.swap]
  · simp [h, lt_irrefl, Ordering.swap]
  · simp [h, asymm h, Ordering.swap]

theorem cmpLin_lt_iff {α : Type} [LinearOrder α] {a b : α} :
    cmpLin a b = .lt ↔ a < b := by
  unfold cmpLin
  split_ifs with h₁ h₂ <;> simp [h₁]

/-- Three-way comparison of character lists by code point
(Python string comparison). -/
def cmpCharList : List Char → List Char → Ordering
  | [], [] => .eq
  | [], _ :: _ => .lt
  | _ :: _, [] => .gt
  | a :: as, b :: bs =>
    if a.toNat < b.toNat then .lt
    else if b.toNat < a.toNat then .gt
    else cmpCharList as bs

theorem cmpCharList_swap : ∀ a b : List Char, cmpCharList b a = (cmpCharList a b).swap
  | [], [] => rfl
  | [], _ :: _ => rfl
  | _ :: _, [] => rfl
  | a :: as, b :: bs => by
    simp only [cmpCharList]
    rcases Nat.lt_trichotomy a.toNat b.toNat with h | h | h
    · simp [h, Nat.lt_asymm h, Ordering.swap]
    · simp [h, Nat.lt_irrefl, cmpCharList_swap as bs, Ordering.swap]
    · simp [h, Nat.lt_asymm h, Ordering.swap]

theorem cmpCharList_lt_trans :
    ∀ {a b c : List Char}, cmpCharList a b = .lt → cmpCharList b c = .lt →
      cmpCharList a c = .lt
  | [], [], _ :: _, _, _ => rfl
  | [], _ :: _, _ :: _, _, _ => rfl
  | a :: as, b :: bs, c :: cs, h₁, h₂ => by
    simp only [cmpCharList] at h₁ h₂ ⊢
    split_ifs at h₁ h₂ ⊢ <;> first
      | rfl
      | omega
      | exact cmpCharList_lt_trans h₁ h₂

theorem cmpCharList_eq_length :
    ∀ {a b : List Char}, cmpCharList a b = .eq → a.length = b.length
  | [], [], _ => rfl
  | a :: as, b :: bs, h => by
    simp only [cmpCharList] at h
    split_ifs at h
    simpa using cmpCharList_eq_length h

theorem cmpCharList_congrL :
    ∀ {a b : List Char}, cmpCharList a b = .eq → ∀ c, cmpCharList a c = cmpCharList b c
  | [], [], _, _ => rfl
  | a :: as, b :: bs, h, c => by
    simp only [cmpCharList] at h
    split_ifs at h with h₁ h₂
    cases c with
    | nil => rfl
    | cons ch ct =>
      have hab : a.toNat = b.toNat := by omega
      simp only [cmpCharList, hab]
      split_ifs <;> first | rfl | exact cmpCharList_congrL h ct

/-- The Python sort key `(score, track_count, -len(name), name)` compared
lexicographically (`rank_artist_candidates` sorts by it with
`reverse=True`). -/
def rankCmp (x y : RankedRow) : Ordering :=
  (cmpLin x.score y.score).then ((cmpLin x.trackCount y.trackCount).then
    ((cmpLin y.name.length x.name.length).then (cmpCharList x.name.data y.name.data)))

theorem rankCmp_swap (x y : RankedRow) : rankCmp y x = (rankCmp x y).swap := by
  unfold rankCmp
  rw [cmpLin_swap x.score, cmpLin_swap x.trackCount,
    cmpLin_swap y.name.length, cmpCharList_swap x.name.data]
  rcases cmpLin x.score y.score with _ | _ | _ <;>
    rcases cmpLin x.trackCount y.trackCount with _ | _ | _ <;>
      rcases cmpLin y.name.length x.name.length with _ | _ | _ <;>
        rcases cmpCharList x.name.data y.name.data with _ | _ | _ <;>
          rfl

theorem rankCmp_congrL {x y : RankedRow} (h : rankCmp x y = .eq) (z : RankedRow) :
    rankCmp x z = rankCmp y z := by
  unfold rankCmp at h ⊢
  rw [thenEqEq, thenEqEq, thenEqEq] at h
  obtain ⟨h₁, h₂, h₃, h₄⟩ := h
  have e₁ := cmpLin_eq h₁
  have e₂ := cmpLin_eq h₂
  have elen : x.name.length = y.name.length := cmpCharList_eq_length h₄
  rw [e₁, e₂, elen, cmpCharList_congrL h₄ z.name.data]

theorem cmpLin_self {α : Type} [LinearOrder α] (a : α) : cmpLin a a = .eq := by
  unfold cmpLin
  simp

theorem cmpCharList_congrR {a b c : List Char} (h : cmpCharList b c = .eq) :
    cmpCharList a b = cmpCharList a c := by
  have hcb : cmpCharList c b = .eq := by rw [cmpCharList_swap, h]; rfl
  calc cmpCharList a b = (cmpCharList b a).swap := by rw [cmpCharList_swap]
    _ = (cmpCharList c a).swap := by rw [cmpCharList_congrL hcb a]
    _ = cmpCharList a c := by rw [← cmpCharList_swap]

theorem rankCmp_lt_trans {x y z : RankedRow}
    (h₁ : rankCmp x y = .lt) (h₂ : rankCmp y z = .lt) : rankCmp x z = .lt := by
  unfold rankCmp at h₁ h₂ ⊢
  simp only [thenEqLt] at h₁ h₂ ⊢
  rcases h₁ with hs | ⟨es, h₁⟩
  · rcases h₂ with hs' | ⟨es', _⟩
    · exact Or.inl (cmpLin_lt_iff.2 (lt_trans (cmpLin_lt_iff.1 hs) (cmpLin_lt_iff.1 hs')))
    · exact Or.inl (by rw [← cmpLin_eq es']; exact hs)
  · rcases h₂ with hs' | ⟨es', h₂⟩
    · exact Or.inl (by rw [cmpLin_eq es]; exact hs')
    · refine Or.inr ⟨by rw [cmpLin_eq es, cmpLin_eq es']; exact cmpLin_self _, ?_⟩
      rcases h₁ with ht | ⟨et, h₁⟩
      · rcases h₂ with ht' | ⟨et', _⟩
        · exact Or.inl (cmpLin_lt_iff.2
            (lt_trans (cmpLin_lt_iff.1 ht) (cmpLin_lt_iff.1 ht')))
        · exact Or.inl (by rw [← cmpLin_eq et']; exact ht)
      · rcases h₂ with ht' | ⟨et', h₂⟩
        · exact Or.inl (by rw [cmpLin_eq et]; exact ht')
        · refine Or.inr ⟨by rw [cmpLin_eq et, cmpLin_eq et']; exact cmpLin_self _, ?_⟩
          rcases h₁ with hl | ⟨el, hn⟩
          · rcases h₂ with hl' | ⟨el', _⟩
            · exact Or.inl (cmpLin_lt_iff.2
                (lt_trans (cmpLin_lt_iff.1 hl') (cmpLin_lt_iff.1 hl)))
            · exact Or.inl (by rw [cmpLin_eq el']; exact hl)
          · rcases h₂ with hl' | ⟨el', hn'⟩
            · exact Or.inl (by rw [← cmpLin_eq el]; exact hl')
            · exact Or.inr ⟨by rw [← cmpLin_eq el]; exact el',
                cmpCharList_lt_trans hn hn'⟩

/-- `x` may precede `y` in the `reverse=True` sort: `x`'s key is not strictly
smaller than `y`'s. Keys are pairwise distinct in `rank_artist_candidates`
output (names are deduplicated), so any sort under this relation yields the
Python result. -/
def rankRel (x y : RankedRow) : Prop := rankCmp x y ≠ .lt

instance : DecidableRel rankRel := fun x y =>
  inferInstanceAs (Decidable (rankCmp x y ≠ .lt))

instance : IsTotal RankedRow rankRel :=
  ⟨fun a b => by
    rcases h : rankCmp a b with _ | _ | _
    · exact Or.inr (show rankCmp b a ≠ .lt by
        rw [rankCmp_swap, h]; simp [Ordering.swap])
    · exact Or.inl (show rankCmp a b ≠ .lt by rw [h]; simp)
    · exact Or.inl (show rankCmp a b ≠ .lt by rw [h]; simp)⟩

instance : IsTrans RankedRow rankRel :=
  ⟨fun a b c h₁ h₂ => by
    show rankCmp a c ≠ .lt
    intro hac
    rcases hab : rankCmp a b with _ | _ | _
    · exact h₁ hab
    · exact h₂ (by rw [← rankCmp_congrL hab c]; exact hac)
    · have hba : rankCmp b a = .lt := by rw [rankCmp_swap, hab]; rfl
      exact h₂ (rankCmp_lt_trans hba hac)⟩

/-- The candidate loop of `rank_artist_candidates`: skip falsy or already-seen
names, record the name as seen, drop candidates whose normalized form is
empty, and build the ranked row. -/
def rankProcess (queryKey : ArtistNameKey) :
    List ArtistCandidate → List String → List RankedRow
  | [], _ => []
  | c :: rest, seen =>
    if pyStrip (c.name.getD "") = "" ∨ pyStrip (c.name.getD "") ∈ seen then
      rankProcess queryKey rest seen
    else if (buildArtistNameKey (pyStrip (c.name.getD ""))).normalized = "" then
      rankProcess queryKey rest (pyStrip (c.name.getD "") :: seen)
    else
      { name := pyStrip (c.name.getD ""),
        score := scoreArtistSimilarity queryKey (buildArtistNameKey (pyStrip (c.name.getD ""))),
        trackCount := c.trackCount.getD 0,
        normalizedName := (buildArtistNameKey (pyStrip (c.name.getD ""))).normalized } ::
      rankProcess queryKey rest (pyStrip (c.name.getD "") :: seen)

/-- `rank_artist_candidates(query, candidates, limit)`. The source's
`list.sort(key=…, reverse=True)` is modelled by insertion sort under
`rankRel`; output keys are pairwise distinct, so the results agree. -/
def rankArtistCandidates (query : String) (candidates : List ArtistCandidate)
    (limit : Int) : List RankedRow :=
  if (buildArtistNameKey query).original = "" then []
  else (List.insertionSort rankRel
    (rankProcess (buildArtistNameKey query) candidates [])).take (max 1 limit).toNat

/-- The `seen_names` set makes emitted names fresh and pairwise distinct. -/
theorem rankProcess_names (qk : ArtistNameKey) :
    ∀ (cs : List ArtistCandidate) (seen : List String),
      (∀ r ∈ rankProcess qk cs seen, r.name ∉ seen) ∧
      ((rankProcess qk cs seen).map (fun r => r.name)).Nodup
  | [], seen => by simp [rankProcess]
  | c :: rest, seen => by
    unfold rankProcess
    split_ifs with h₁ h₂
    · exact rankProcess_names qk rest seen
    · obtain ⟨ih₁, ih₂⟩ := rankProcess_names qk rest (pyStrip (c.name.getD "") :: seen)
      exact ⟨fun r hr hmem => ih₁ r hr (List.mem_cons_of_mem _ hmem), ih₂⟩
    · obtain ⟨ih₁, ih₂⟩ := rankProcess_names qk rest (pyStrip (c.name.getD "") :: seen)
      push_neg at h₁
      constructor
      · intro r hr hmem
        rcases List.mem_cons.1 hr with rfl | hr'
        · exact h₁.2 hmem
        · exact ih₁ r hr' (List.mem_cons_of_mem _ hmem)
      · rw [List.map_cons]
        refine List.nodup_cons.2 ⟨?_, ih₂⟩
        intro hmem
        rcases List.mem_map.1 hmem with ⟨r, hr, hname⟩
        exact ih₁ r hr (by rw [hname]; exact List.mem_cons_self _ _)

/-- Every emitted row is built from some input candidate. -/
theorem rankProcess_mem (qk : ArtistNameKey) :
    ∀ (cs : List ArtistCandidate) (seen : List String) (r : RankedRow),
      r ∈ rankProcess qk cs seen →
      ∃ c ∈ cs, r.name = pyStrip (c.name.getD "") ∧
        r.trackCount = c.trackCount.getD 0 ∧
        r.score = scoreArtistSimilarity qk (buildArtistNameKey r.name) ∧
        r.normalizedName = (buildArtistNameKey r.name).normalized
  | [], _, r => by simp [rankProcess]
  | c :: rest, seen, r => by
    unfold rankProcess
    split_ifs with h₁ h₂
    · intro hr
      obtain ⟨c', hc', hprops⟩ := rankProcess_mem qk rest seen r hr
      exact ⟨c', List.mem_cons_of_mem _ hc', hprops⟩
    · intro hr
      obtain ⟨c', hc', hprops⟩ := rankProcess_mem qk rest _ r hr
      exact ⟨c', List.mem_cons_of_mem _ hc', hprops⟩
    · intro hr
      rcases List.mem_cons.1 hr with rfl | hr'
      · exact ⟨c, List.mem_cons_self _ _, rfl, rfl, rfl, rfl⟩
      · obtain ⟨c', hc', hprops⟩ := rankProcess_mem qk rest _ r hr'
        exact ⟨c', List.mem_cons_of_mem _ hc', hprops⟩

/-! ### Properties of the similarity score (claim C7) -/

theorem buildArtistNameKey_normalized (x : String) :
    (buildArtistNameKey x).normalized = normalizeArtistName true (pyStrip x) := rfl

theorem buildArtistNameKey_unspaced (x : String) :
    (buildArtistNameKey x).unspaced =
      String.join (((splitOnSpaces (buildArtistNameKey x).normalized).filter (· != ""))) :=
  rfl

/-- A key with empty normalized form also has an empty unspaced form
(its token list is empty). -/
theorem buildKey_unspaced_empty {x : String}
    (h : (buildArtistNameKey x).normalized = "") :
    (buildArtistNameKey x).unspaced = "" := by
  rw [buildArtistNameKey_unspaced, h]
  rfl

theorem string_ne_empty_of_three_le_length {s : String} (h : 3 ≤ s.length) :
    s ≠ "" := by
  intro e
  rw [e] at h
  simp [String.length] at h

/-- Claim C7, amended: for keys built by `build_artist_name_key`,
`score_artist_similarity` is in [0, 100]; it is exactly 100 on equal non-empty
normalized forms; it is at least 97 on equal whitespace-free forms provided
both normalized forms are non-empty; it is at least 92 when one whitespace-free
form contains the other and the shorter has at least 3 characters; and
`score(x, x) = 100` whenever the normalized form of `x` is non-empty. -/
theorem score_artist_similarity_contract (x y : String) :
    (0 ≤ scoreArtistSimilarity (buildArtistNameKey x) (buildArtistNameKey y) ∧
      scoreArtistSimilarity (buildArtistNameKey x) (buildArtistNameKey y) ≤ 100) ∧
    ((buildArtistNameKey x).normalized ≠ "" →
      (buildArtistNameKey x).normalized = (buildArtistNameKey y).normalized →
      scoreArtistSimilarity (buildArtistNameKey x) (buildArtistNameKey y) = 100) ∧
    ((buildArtistNameKey x).normalized ≠ "" → (buildArtistNameKey y).normalized ≠ "" →
      (buildArtistNameKey x).unspaced = (buildArtistNameKey y).unspaced →
      (97 : ℚ) ≤ scoreArtistSimilarity (buildArtistNameKey x) (buildArtistNameKey y)) ∧
    ((containsSub (buildArtistNameKey y).unspaced.data (buildArtistNameKey x).unspaced.data ∨
      containsSub (buildArtistNameKey x).unspaced.data (buildArtistNameKey y).unspaced.data) →
      3 ≤ min (buildArtistNameKey x).unspaced.length (buildArtistNameKey y).unspaced.length →
      (92 : ℚ) ≤ scoreArtistSimilarity (buildArtistNameKey x) (buildArtistNameKey y)) ∧
    ((buildArtistNameKey x).normalized ≠ "" →
      scoreArtistSimilarity (buildArtistNameKey x) (buildArtistNameKey x) = 100) := by
  refine ⟨?_, ?_, ?_, ?_, ?_⟩
  · unfold scoreArtistSimilarity
    split_ifs
    · exact ⟨le_refl 0, by norm_num⟩
    · exact ⟨by norm_num, le_refl 100⟩
    · exact ⟨scoreCap_nonneg _ _ _, scoreCap_le_100 _ _ _⟩
  · intro hx hxy
    unfold scoreArtistSimilarity
    rw [if_neg (by simp [hx, hxy ▸ hx]), if_pos hxy]
  · intro hx hy hu
    unfold scoreArtistSimilarity
    rw [if_neg (by simp [hx, hy])]
    split_ifs
    · norm_num
    · exact scoreCap_ge_97 hu
  · intro hsub hlen
    have hqu : (buildArtistNameKey x).unspaced ≠ "" :=
      string_ne_empty_of_three_le_length (le_trans hlen (min_le_left _ _))
    have hcu : (buildArtistNameKey y).unspaced ≠ "" :=
      string_ne_empty_of_three_le_length (le_trans hlen (min_le_right _ _))
    have hqn : (buildArtistNameKey x).normalized ≠ "" := fun h =>
      hqu (buildKey_unspaced_empty h)
    have hcn : (buildArtistNameKey y).normalized ≠ "" := fun h =>
      hcu (buildKey_unspaced_empty h)
    unfold scoreArtistSimilarity
    rw [if_neg (by simp [hqn, hcn])]
    split_ifs
    · norm_num
    · exact scoreCap_ge_92 (scoreContain_ge_92 hsub hlen hqu hcu)
  · intro hx
    unfold scoreArtistSimilarity
    rw [if_neg (by simp [hx]), if_pos rfl]

/-- Claim C7 counterexample: for the non-empty string "!", the built key has
empty normalized and unspaced forms (equal to themselves), yet the score of
the key against itself is 0, not 100 (and not at least 97). -/
theorem score_artist_similarity_cx :
    ("!" : String) ≠ "" ∧
    (buildArtistNameKey "!").unspaced = (buildArtistNameKey "!").unspaced ∧
    scoreArtistSimilarity (buildArtistNameKey "!") (buildArtistNameKey "!") = 0 ∧
    ¬ (97 : ℚ) ≤ scoreArtistSimilarity (buildArtistNameKey "!") (buildArtistNameKey "!") := by
  refine ⟨by decide, rfl, by decide, by decide⟩

/-- Witness for `score_artist_similarity_contract` at the concrete input
"abc": its normalized form is non-empty and the self-score is exactly 100. -/
theorem score_artist_similarity_contract_witness :
    scoreArtistSimilarity (buildArtistNameKey "abc") (buildArtistNameKey "abc") = 100 :=
  (score_artist_similarity_contract "abc" "abc").2.2.2.2 (by decide)


/-! ### Properties of candidate ranking (claim C5) -/

/-- Claim C5 (amended): the ranked output is truncated to `max(1, limit)`
entries, sorted by score descending, then track count descending, then name
length ascending, then name lexically DESCENDING (the `reverse=True` sort
reverses the final `name` tie-break too), has pairwise distinct names, and
every row is built from some input candidate. -/
theorem rank_artist_candidates_contract (query : String)
    (candidates : List ArtistCandidate) (limit : Int) :
    (rankArtistCandidates query candidates limit).length ≤ (max 1 limit).toNat ∧
    List.Sorted rankRel (rankArtistCandidates query candidates limit) ∧
    ((rankArtistCandidates query candidates limit).map (fun r => r.name)).Nodup ∧
    ∀ r ∈ rankArtistCandidates query candidates limit, ∃ c ∈ candidates,
      r.name = pyStrip (c.name.getD "") ∧ r.trackCount = c.trackCount.getD 0 ∧
      r.score = scoreArtistSimilarity (buildArtistNameKey query) (buildArtistNameKey r.name) ∧
      r.normalizedName = (buildArtistNameKey r.name).normalized := by
  unfold rankArtistCandidates
  split_ifs with h
  · simp
  · refine ⟨List.length_take_le _ _, ?_, ?_, ?_⟩
    · exact List.Pairwise.sublist (List.take_sublist _ _)
        (List.sorted_insertionSort rankRel _)
    · have hperm := (List.perm_insertionSort rankRel
        (rankProcess (buildArtistNameKey query) candidates [])).map (fun r => r.name)
      have hnodup : ((List.insertionSort rankRel
          (rankProcess (buildArtistNameKey query) candidates [])).map
            (fun r => r.name)).Nodup :=
        hperm.nodup_iff.2 (rankProcess_names (buildArtistNameKey query) candidates []).2
      rw [List.map_take]
      exact List.Nodup.sublist (List.take_sublist _ _) hnodup
    · intro r hr
      have hr₁ : r ∈ List.insertionSort rankRel
          (rankProcess (buildArtistNameKey query) candidates []) :=
        (List.take_sublist _ _).subset hr
      have hr₂ : r ∈ rankProcess (buildArtistNameKey query) candidates [] :=
        (List.perm_insertionSort rankRel _).mem_iff.1 hr₁
      exact rankProcess_mem (buildArtistNameKey query) candidates [] r hr₂

/-- The order asserted by the claim: score descending, then frequency
descending, then name length ascending, then name lexically ASCENDING. -/
def claimedRankRel (x y : RankedRow) : Prop :=
  (cmpLin x.score y.score).then ((cmpLin x.trackCount y.trackCount).then
    (cmpLin y.name.length x.name.length)) = .gt ∨
  ((cmpLin x.score y.score).then ((cmpLin x.trackCount y.trackCount).then
    (cmpLin y.name.length x.name.length)) = .eq ∧
    cmpCharList x.name.data y.name.data ≠ .gt)

instance : DecidableRel claimedRankRel := fun _ _ =>
  inferInstanceAs (Decidable (_ ∨ _ ∧ _))

/-- Claim C5 counterexample: for query "a b" and candidates "A B" and "A-B"
(equal scores, counts and lengths), the code returns "A-B" first — names are
tie-broken lexically DESCENDING, so the output is not sorted by the claimed
lexically-ascending order. -/
theorem rank_artist_candidates_cx :
    ((rankArtistCandidates "a b" [⟨some "A B", none⟩, ⟨some "A-B", none⟩] 10).map
        (fun r => r.name) = ["A-B", "A B"]) ∧
    ¬ List.Sorted claimedRankRel
        (rankArtistCandidates "a b" [⟨some "A B", none⟩, ⟨some "A-B", none⟩] 10) := by
  constructor
  · decide
  · decide

/-- Witness for `rank_artist_candidates_contract`: the one-candidate ranking
of "ab" emits the expected row, built from that candidate. -/
theorem rank_artist_candidates_contract_witness :
    ∃ c ∈ [({ name := some "ab", trackCount := some 3 } : ArtistCandidate)],
      ({ name := "ab", score := 100, trackCount := 3, normalizedName := "ab" } :
          RankedRow).name = pyStrip (c.name.getD "") ∧
      ({ name := "ab", score := 100, trackCount := 3, normalizedName := "ab" } :
          RankedRow).trackCount = c.trackCount.getD 0 ∧
      ({ name := "ab", score := 100, trackCount := 3, normalizedName := "ab" } :
          RankedRow).score = scoreArtistSimilarity (buildArtistNameKey "ab")
            (buildArtistNameKey "ab") ∧
      ({ name := "ab", score := 100, trackCount := 3, normalizedName := "ab" } :
          RankedRow).normalizedName = (buildArtistNameKey "ab").normalized := by
  have h := (rank_artist_candidates_contract "ab"
    [{ name := some "ab", trackCount := some 3 }] 2).2.2.2
    { name := "ab", score := 100, trackCount := 3, normalizedName := "ab" } (by decide)
  exact h


/-! ## Model of src/app/metadata_processor.py: sanitize_filename (claim C9) -/

/-- The illegal-character class of `sanitize_filename`
(the regex `[<>:"/\|?*]`). -/
def isIllegalFilenameChar (c : Char) : Bool :=
  c = '<' || c = '>' || c = ':' || c = '"' || c = '/' || c = '\\' || c = '|' ||
    c = '?' || c = '*'

/-- The character class stripped from both ends (`.strip('. ')`). -/
def isDotOrSpace (c : Char) : Bool := c = '.' || c = ' '

/-- `sanitize_filename(filename)`: drop illegal characters, strip leading and
trailing dots and spaces, and substitute "untitled" when empty. -/
def sanitizeFilename (filename : String) : String :=
  if stripEnds isDotOrSpace (filename.data.filter (fun c => !(isIllegalFilenameChar c)))
      = [] then "untitled"
  else ⟨stripEnds isDotOrSpace (filename.data.filter (fun c => !(isIllegalFilenameChar c)))⟩

theorem dropWhile_head_not {p : Char → Bool} :
    ∀ {l : List Char} {x : Char} {xs : List Char}, l.dropWhile p = x :: xs → p x = false := by
  intro l
  induction l with
  | nil =>
    intro x xs h
    simp [List.dropWhile] at h
  | cons a t ih =>
    intro x xs h
    rw [List.dropWhile_cons] at h
    split_ifs at h with hpa
    · exact ih h
    · injection h with h₁ h₂
      subst h₁
      simpa using hpa

theorem getLast?_of_suffix {α : Type} {l₁ l₂ : List α} (h : l₁ <:+ l₂) (hne : l₁ ≠ []) :
    l₂.getLast? = l₁.getLast? := by
  obtain ⟨t, rfl⟩ := h
  exact List.getLast?_append_of_ne_nil _ hne

theorem mem_stripEnds {p : Char → Bool} {l : List Char} {x : Char}
    (h : x ∈ stripEnds p l) : x ∈ l := by
  unfold stripEnds at h
  rw [List.mem_reverse] at h
  have h₂ := (List.dropWhile_suffix p).subset h
  rw [List.mem_reverse] at h₂
  exact (List.dropWhile_suffix p).subset h₂

theorem stripEnds_first {p : Char → Bool} {l : List Char} {x : Char} {xs : List Char}
    (h : stripEnds p l = x :: xs) : p x = false := by
  unfold stripEnds at h
  have hlast : ((l.dropWhile p).reverse.dropWhile p).getLast? = some x := by
    rw [← List.head?_reverse, h]
    rfl
  have hne : (l.dropWhile p).reverse.dropWhile p ≠ [] := by
    intro e
    rw [e] at hlast
    simp at hlast
  have hEq := getLast?_of_suffix (List.dropWhile_suffix p) hne
  rw [← hEq, List.getLast?_reverse] at hlast
  rcases hd : l.dropWhile p with _ | ⟨y, ys⟩
  · rw [hd] at hlast
    simp at hlast
  · rw [hd] at hlast
    simp only [List.head?_cons, Option.some_inj] at hlast
    rw [← hlast]
    exact dropWhile_head_not hd

theorem stripEnds_getLast {p : Char → Bool} {l : List Char} {x : Char}
    (h : (stripEnds p l).getLast? = some x) : p x = false := by
  unfold stripEnds at h
  rw [List.getLast?_reverse] at h
  rcases hd : (l.dropWhile p).reverse.dropWhile p with _ | ⟨y, ys⟩
  · rw [hd] at h
    simp at h
  · rw [hd] at h
    simp only [List.head?_cons, Option.some_inj] at h
    rw [← h]
    exact dropWhile_head_not hd

/-- Claim C9: `sanitize_filename` output never contains an illegal character,
has no leading or trailing dot or space, and collapses inputs made solely of
removed characters (or the empty input) to the fixed placeholder "untitled". -/
theorem sanitize_filename_contract (s : String) :
    (∀ c ∈ (sanitizeFilename s).data, isIllegalFilenameChar c = false) ∧
    (∀ c xs, (sanitizeFilename s).data = c :: xs → isDotOrSpace c = false) ∧
    (∀ c, (sanitizeFilename s).data.getLast? = some c → isDotOrSpace c = false) ∧
    ((∀ c ∈ s.data, isIllegalFilenameChar c = true ∨ isDotOrSpace c = true) →
      sanitizeFilename s = "untitled") := by
  have huntitled₁ : ∀ c ∈ ("untitled" : String).data, isIllegalFilenameChar c = false := by
    decide
  have huntitled₂ : ∀ c xs, ("untitled" : String).data = c :: xs → isDotOrSpace c = false := by
    intro c xs h
    rw [show ("untitled" : String).data = 'u' :: ['n', 't', 'i', 't', 'l', 'e', 'd'] from rfl]
      at h
    injection h with h₁ _
    rw [← h₁]
    decide
  have huntitled₃ : ∀ c, ("untitled" : String).data.getLast? = some c →
      isDotOrSpace c = false := by
    decide
  refine ⟨?_, ?_, ?_, ?_⟩
  · intro c hc
    unfold sanitizeFilename at hc
    split_ifs at hc with he
    · exact huntitled₁ c hc
    · have hmem := mem_stripEnds hc
      have := List.of_mem_filter hmem
      simpa using this
  · intro c xs hc
    unfold sanitizeFilename at hc
    split_ifs at hc with he
    · exact huntitled₂ c xs hc
    · exact stripEnds_first hc
  · intro c hc
    unfold sanitizeFilename at hc
    split_ifs at hc with he
    · exact huntitled₃ c hc
    · exact stripEnds_getLast hc
  · intro hall
    unfold sanitizeFilename
    rw [if_pos]
    unfold stripEnds
    have h₁ : (s.data.filter (fun c => !(isIllegalFilenameChar c))).dropWhile isDotOrSpace
        = [] := by
      rw [List.dropWhile_eq_nil_iff]
      intro x hx
      have hmem := List.of_mem_filter hx
      have hx' := List.mem_of_mem_filter hx
      rcases hall x hx' with hbad | hgood
      · rw [hbad] at hmem
        simp at hmem
      · exact hgood
    rw [h₁]
    rfl

/-- Witness for `sanitize_filename_contract` at a concrete all-removed input. -/
theorem sanitize_filename_contract_witness :
    sanitizeFilename "<.>. " = "untitled" :=
  (sanitize_filename_contract "<.>. ").2.2.2 (by decide)


/-! ## Model of src/app/mover.py: build_destination_path (claim C8) -/

/-- Decimal digit characters. -/
def digitCh : Nat → Char
  | 0 => '0' | 1 => '1' | 2 => '2' | 3 => '3' | 4 => '4'
  | 5 => '5' | 6 => '6' | 7 => '7' | 8 => '8' | _ => '9'

/-- Decimal rendering of a natural number (Python `str` of the loop counter). -/
def decimalRepr (n : Nat) : String :=
  if n = 0 then "0" else ⟨((Nat.digits 10 n).map digitCh).reverse⟩

theorem digitCh_inj {a b : Nat} (ha : a < 10) (hb : b < 10)
    (h : digitCh a = digitCh b) : a = b := by
  interval_cases a <;> interval_cases b <;> revert h <;> decide

theorem mapDigitCh_inj :
    ∀ {l₁ l₂ : List Nat}, (∀ x ∈ l₁, x < 10) → (∀ x ∈ l₂, x < 10) →
      l₁.map digitCh = l₂.map digitCh → l₁ = l₂
  | [], [], _, _, _ => rfl
  | [], _ :: _, _, _, h => by simp at h
  | _ :: _, [], _, _, h => by simp at h
  | a :: as, b :: bs, h₁, h₂, h => by
    simp only [List.map_cons, List.cons.injEq] at h
    have hab := digitCh_inj (h₁ a (List.mem_cons_self _ _)) (h₂ b (List.mem_cons_self _ _)) h.1
    have hrest := mapDigitCh_inj (fun x hx => h₁ x (List.mem_cons_of_mem _ hx))
      (fun x hx => h₂ x (List.mem_cons_of_mem _ hx)) h.2
    rw [hab, hrest]

theorem digitsRepr_ne_singleton_zero {n : Nat} (hn : n ≠ 0) :
    ((Nat.digits 10 n).map digitCh).reverse ≠ ['0'] := by
  intro hrev0
  have hrev : (Nat.digits 10 n).map digitCh = ['0'] := by
    have := congrArg List.reverse hrev0
    simpa using this
  have hdig : Nat.digits 10 n = [0] := by
    rcases hnd : Nat.digits 10 n with _ | ⟨d, ds⟩
    · rw [hnd] at hrev
      simp at hrev
    · rw [hnd] at hrev
      rcases ds with _ | ⟨d', ds'⟩
      · simp only [List.map_cons, List.map_nil, List.cons.injEq] at hrev
        have hd10 : d < 10 := Nat.digits_lt_base (by norm_num) (by rw [hnd]; simp)
        have hd0 : d = 0 := digitCh_inj hd10 (by norm_num) hrev.1
        rw [hd0]
      · simp at hrev
  have hzero := Nat.ofDigits_digits 10 n
  rw [hdig] at hzero
  simp [Nat.ofDigits] at hzero
  exact hn hzero.symm

theorem decimalRepr_inj : Function.Injective decimalRepr := by
  intro m n h
  unfold decimalRepr at h
  split_ifs at h with hm hn hn
  · rw [hm, hn]
  · exact absurd (congrArg String.data h).symm (digitsRepr_ne_singleton_zero hn)
  · exact absurd (congrArg String.data h) (digitsRepr_ne_singleton_zero hm)
  · have hmap : (Nat.digits 10 m).map digitCh = (Nat.digits 10 n).map digitCh := by
      have := congrArg List.reverse (congrArg String.data h)
      simpa using this
    exact Nat.digits.injective 10 (mapDigitCh_inj
      (fun x hx => Nat.digits_lt_base (by norm_num) hx)
      (fun x hx => Nat.digits_lt_base (by norm_num) hx) hmap)


/-- The fixed album name (config.ALBUM_NAME "منوعات": meem noon waw ain alef
teh). -/
def albumName : String :=
  ⟨[Char.ofNat 0x645, Char.ofNat 0x646, Char.ofNat 0x648, Char.ofNat 0x639,
    Char.ofNat 0x627, Char.ofNat 0x62A]⟩

/-- config.NAVIDROME_ROOT (default "/music"). -/
def navidromeRoot : String := "/music"

/-- The n-th candidate destination of `build_destination_path`:
n = 0 is `{root}/{artist}/{album}/{title}{ext}`; n ≥ 1 appends " (n)" before
the extension. -/
def destPathN (artist title ext : String) (n : Nat) : String :=
  navidromeRoot ++ "/" ++ sanitizeFilename artist ++ "/" ++ sanitizeFilename albumName
    ++ "/" ++
    (if n = 0 then sanitizeFilename title ++ ext
     else sanitizeFilename title ++ " (" ++ decimalRepr n ++ ")" ++ ext)

/-- The collision loop of `build_destination_path`: try candidate `n`,
`n + 1`, … while the candidate exists in `fs`. `fuel` bounds the iterations;
`fs.length + 1` always suffices because candidates are pairwise distinct. -/
def searchFreePath (fs : List String) (artist title ext : String) : Nat → Nat → String
  | 0, n => destPathN artist title ext n
  | fuel + 1, n =>
    if destPathN artist title ext n ∈ fs then
      searchFreePath fs artist title ext fuel (n + 1)
    else destPathN artist title ext n

/-- `build_destination_path(artist, title, extension)` over an abstract
filesystem `fs`, the list of existing paths (`dest_path.exists()`). -/
def buildDestinationPath (fs : List String) (artist title ext : String) : String :=
  searchFreePath fs artist title ext (fs.length + 1) 0

theorem decimalRepr_ne_empty (n : Nat) : decimalRepr n ≠ "" := by
  unfold decimalRepr
  split_ifs with h
  · decide
  · intro he
    have hd := congrArg String.data he
    have : (Nat.digits 10 n).map digitCh = [] := by
      have := congrArg List.reverse hd
      simpa using this
    rw [List.map_eq_nil_iff] at this
    exact (Nat.digits_ne_nil_iff_ne_zero.2 h) this

theorem destPathN_inj (artist title ext : String) :
    Function.Injective (destPathN artist title ext) := by
  intro m n h
  unfold destPathN at h
  rcases Nat.eq_zero_or_pos m with hm | hm <;> rcases Nat.eq_zero_or_pos n with hn | hn
  · rw [hm, hn]
  · exfalso
    rw [hm] at h
    rw [if_pos rfl, if_neg (by omega)] at h
    have hd := congrArg String.data h
    simp only [String.data_append] at hd
    have hlen := congrArg List.length hd
    simp only [List.length_append] at hlen
    have hne := decimalRepr_ne_empty n
    have : 1 ≤ (decimalRepr n).data.length := by
      rcases he : (decimalRepr n).data with _ | _
      · exact absurd (String.ext he) hne
      · simp
    have h2 : (" (" : String).data.length = 2 := by decide
    have h3 : (")" : String).data.length = 1 := by decide
    omega
  · exfalso
    rw [hn] at h
    rw [if_pos rfl, if_neg (by omega)] at h
    have hd := congrArg String.data h
    simp only [String.data_append] at hd
    have hlen := congrArg List.length hd
    simp only [List.length_append] at hlen
    have hne := decimalRepr_ne_empty m
    have : 1 ≤ (decimalRepr m).data.length := by
      rcases he : (decimalRepr m).data with _ | _
      · exact absurd (String.ext he) hne
      · simp
    have h2 : (" (" : String).data.length = 2 := by decide
    have h3 : (")" : String).data.length = 1 := by decide
    omega
  · rw [if_neg (by omega), if_neg (by omega)] at h
    have hd := congrArg String.data h
    simp only [String.data_append, List.append_assoc] at hd
    repeat replace hd := List.append_cancel_left hd
    replace hd := List.append_cancel_right hd
    exact decimalRepr_inj (String.ext hd)

theorem exists_freeCandidate (fs : List String) (artist title ext : String) :
    ∃ k ≤ fs.length, destPathN artist title ext k ∉ fs := by
  by_contra hcon
  push_neg at hcon
  have hmaps : ∀ a ∈ Finset.range (fs.length + 1),
      destPathN artist title ext a ∈ fs.toFinset := by
    intro a ha
    rw [List.mem_toFinset]
    exact hcon a (Nat.lt_succ_iff.1 (Finset.mem_range.1 ha))
  have hinj : Set.InjOn (destPathN artist title ext) (Finset.range (fs.length + 1)) :=
    fun a _ b _ hab => destPathN_inj artist title ext hab
  have hcard := Finset.card_le_card_of_injOn _ hmaps hinj
  rw [Finset.card_range] at hcard
  have hle := fs.toFinset_card_le
  omega

theorem searchFreePath_spec (fs : List String) (artist title ext : String) :
    ∀ (fuel start : Nat), (∃ k < fuel, destPathN artist title ext (start + k) ∉ fs) →
      ∃ k, searchFreePath fs artist title ext fuel start
          = destPathN artist title ext (start + k) ∧
        destPathN artist title ext (start + k) ∉ fs ∧
        ∀ j < k, destPathN artist title ext (start + j) ∈ fs
  | 0, start, h => by
    obtain ⟨k, hk, _⟩ := h
    omega
  | fuel + 1, start, h => by
    simp only [searchFreePath]
    by_cases hmem : destPathN artist title ext start ∈ fs
    · rw [if_pos hmem]
      obtain ⟨k, hk, hfree⟩ := h
      have hk0 : k ≠ 0 := by
        rintro rfl
        rw [Nat.add_zero] at hfree
        exact hfree hmem
      obtain ⟨k', hk', hfree', hall⟩ := searchFreePath_spec fs artist title ext fuel
        (start + 1) ⟨k - 1, by omega, by
          have heq : start + 1 + (k - 1) = start + k := by omega
          rw [heq]
          exact hfree⟩
      refine ⟨k' + 1, ?_, ?_, ?_⟩
      · rw [hk']
        congr 1
        omega
      · have heq : start + (k' + 1) = start + 1 + k' := by omega
        rw [heq]
        exact hfree'
      · intro j hj
        cases j with
        | zero => simpa using hmem
        | succ j' =>
          have heq : start + (j' + 1) = start + 1 + j' := by omega
          rw [heq]
          exact hall j' (by omega)
    · rw [if_neg hmem]
      exact ⟨0, by rw [Nat.add_zero], by rwa [Nat.add_zero],
        fun j hj => absurd hj (Nat.not_lt_zero j)⟩


/-- Claim C8: `build_destination_path` never returns an existing path; a free
base path is returned as-is; an occupied base path gets " (n)" appended with
the least free n ≥ 1 (all smaller suffixed candidates being occupied); and a
second build after the first result is created (same artist, title and
extension, base and " (1)" initially free) yields the distinct path
suffixed " (1)". -/
theorem build_destination_path_contract (fs : List String) (artist title ext : String) :
    buildDestinationPath fs artist title ext ∉ fs ∧
    (destPathN artist title ext 0 ∉ fs →
      buildDestinationPath fs artist title ext = destPathN artist title ext 0) ∧
    (destPathN artist title ext 0 ∈ fs →
      ∃ n, 1 ≤ n ∧ buildDestinationPath fs artist title ext = destPathN artist title ext n ∧
        destPathN artist title ext n ∉ fs ∧
        ∀ m, 1 ≤ m → m < n → destPathN artist title ext m ∈ fs) ∧
    (destPathN artist title ext 0 ∉ fs → destPathN artist title ext 1 ∉ fs →
      buildDestinationPath (buildDestinationPath fs artist title ext :: fs) artist title ext
        = destPathN artist title ext 1) := by
  obtain ⟨kf, hkle, hkfree⟩ := exists_freeCandidate fs artist title ext
  obtain ⟨k, hk, hfree, hall⟩ := searchFreePath_spec fs artist title ext (fs.length + 1) 0
    ⟨kf, by omega, by rw [Nat.zero_add]; exact hkfree⟩
  rw [Nat.zero_add] at hk hfree
  have hballs : ∀ j < k, destPathN artist title ext j ∈ fs := by
    intro j hj
    have := hall j hj
    rwa [Nat.zero_add] at this
  have hbuild : buildDestinationPath fs artist title ext = destPathN artist title ext k := hk
  refine ⟨?_, ?_, ?_, ?_⟩
  · rw [hbuild]
    exact hfree
  · intro h0
    rw [hbuild]
    congr 1
    by_contra hne
    exact h0 (hballs 0 (by omega))
  · intro h0
    refine ⟨k, ?_, hbuild, hfree, fun m hm₁ hm₂ => hballs m hm₂⟩
    rcases Nat.eq_zero_or_pos k with hk0 | hk0
    · rw [hk0] at hfree
      exact absurd h0 hfree
    · omega
  · intro h0 h1
    have hfirst : buildDestinationPath fs artist title ext = destPathN artist title ext 0 := by
      rw [hbuild]
      congr 1
      by_contra hne
      exact h0 (hballs 0 (by omega))
    rw [hfirst]
    obtain ⟨k₂, hk₂, hfree₂, hall₂⟩ := searchFreePath_spec
      (destPathN artist title ext 0 :: fs) artist title ext
      ((destPathN artist title ext 0 :: fs).length + 1) 0
      ⟨1, by simp, by
        rw [Nat.zero_add]
        intro hmem
        rcases List.mem_cons.1 hmem with heq | hmem'
        · exact absurd (destPathN_inj artist title ext heq) (by omega)
        · exact h1 hmem'⟩
    rw [Nat.zero_add] at hk₂ hfree₂
    have hbuild₂ : buildDestinationPath (destPathN artist title ext 0 :: fs) artist title ext
        = destPathN artist title ext k₂ := hk₂
    rw [hbuild₂]
    congr 1
    have hk₂pos : 1 ≤ k₂ := by
      rcases Nat.eq_zero_or_pos k₂ with hz | hp
      · rw [hz] at hfree₂
        exact absurd (List.mem_cons_self _ _) hfree₂
      · exact hp
    by_contra hne
    have h1in := hall₂ 1 (by omega)
    rw [Nat.zero_add] at h1in
    rcases List.mem_cons.1 h1in with heq | hmem'
    · exact absurd (destPathN_inj artist title ext heq) (by omega)
    · exact h1 hmem'

/-- Witness for `build_destination_path_contract`: concrete first and second
moves of ("A", "T", ".mp3") into an initially empty root. -/
theorem build_destination_path_contract_witness :
    buildDestinationPath [] "A" "T" ".mp3" ∉ ([] : List String) ∧
    buildDestinationPath [] "A" "T" ".mp3" = destPathN "A" "T" ".mp3" 0 ∧
    (∃ n, 1 ≤ n ∧
      buildDestinationPath [destPathN "A" "T" ".mp3" 0] "A" "T" ".mp3"
        = destPathN "A" "T" ".mp3" n ∧
      destPathN "A" "T" ".mp3" n ∉ [destPathN "A" "T" ".mp3" 0] ∧
      ∀ m, 1 ≤ m → m < n → destPathN "A" "T" ".mp3" m ∈ [destPathN "A" "T" ".mp3" 0]) ∧
    buildDestinationPath (buildDestinationPath [] "A" "T" ".mp3" :: []) "A" "T" ".mp3"
      = destPathN "A" "T" ".mp3" 1 :=
  ⟨(build_destination_path_contract [] "A" "T" ".mp3").1,
    (build_destination_path_contract [] "A" "T" ".mp3").2.1 (List.not_mem_nil _),
    (build_destination_path_contract [destPathN "A" "T" ".mp3" 0] "A" "T" ".mp3").2.2.1
      (List.mem_singleton_self _),
    (build_destination_path_contract [] "A" "T" ".mp3").2.2.2 (List.not_mem_nil _)
      (List.not_mem_nil _)⟩


/-! ## Model of src/app/metadata_processor.py: read_metadata (claim C10) -/

/-- Python values stored in the metadata dictionary. -/
inductive PyVal where
  | none
  | str (s : String)
  | int (n : Int)
  | bool (b : Bool)
  | strList (l : List String)
deriving DecidableEq, Repr

/-- The metadata dictionary: an association list in insertion order. -/
def PyDict : Type := List (String × PyVal)

instance : DecidableEq PyDict := inferInstanceAs (DecidableEq (List (String × PyVal)))

/-- Assignment `d[k] = v` for a key already present in `d` (all keys the
source assigns are in the initial dictionary). -/
def dictSet (d : PyDict) (k : String) (v : PyVal) : PyDict :=
  List.map (fun e => if e.1 == k then (k, v) else e) d

/-- `d[k] = v` guarded by a condition: `Option.none` models skipping the
assignment (the source's conditional assignments). -/
def dictSetOpt (d : PyDict) (k : String) (v : Option PyVal) : PyDict :=
  match v with
  | Option.some v => dictSet d k v
  | Option.none => d

/-- The dictionary literal at the top of `read_metadata`. -/
def initialMetadata : PyDict :=
  [("title", .none), ("artist", .none), ("album", .none), ("album_artist", .none),
   ("genre", .none), ("year", .none), ("track_number", .none), ("disc_number", .none),
   ("duration", .none), ("has_artwork", .bool false), ("format", .none),
   ("tag_keys", .strList [])]

theorem dictSet_keys (d : PyDict) (k : String) (v : PyVal) :
    (dictSet d k v).map Prod.fst = d.map Prod.fst := by
  unfold dictSet
  rw [List.map_map]
  apply List.map_congr_left
  intro e _
  by_cases h : e.1 == k
  · simp only [Function.comp_apply, if_pos h]
    exact (eq_of_beq h).symm
  · simp only [Function.comp_apply, if_neg h]

theorem dictSetOpt_keys (d : PyDict) (k : String) (v : Option PyVal) :
    (dictSetOpt d k v).map Prod.fst = d.map Prod.fst := by
  cases v
  · rfl
  · exact dictSet_keys d k _

/-- Decimal digit accumulation (the core of CPython `int(str)` on ASCII
digit strings; underscore separators and non-ASCII digits are out of scope
of this model). -/
def digitsToNat (l : List Char) : Nat :=
  l.foldl (fun acc c => acc * 10 + (c.toNat - 48)) 0

/-- Python `int(s)` returning `None` on `ValueError` (as `_parse_int` uses
it): strip whitespace, optional sign, then a non-empty all-digit string. -/
def pyIntParse (s : String) : Option Int :=
  match (pyStrip s).data with
  | [] => Option.none
  | '-' :: ds =>
    if ds ≠ [] ∧ ds.all Char.isDigit then Option.some (-(digitsToNat ds : Int))
    else Option.none
  | '+' :: ds =>
    if ds ≠ [] ∧ ds.all Char.isDigit then Option.some (digitsToNat ds : Int)
    else Option.none
  | ds => if ds.all Char.isDigit then Option.some (digitsToNat ds : Int) else Option.none

/-- `_parse_int(value)` on an optional string. -/
def parseIntOpt (v : Option String) : Option Int :=
  match v with
  | Option.none => Option.none
  | Option.some s => pyIntParse s

/-- `_parse_year(value)`: falsy input gives `None`, else parse the first four
characters of the stripped string. -/
def parseYearOpt (v : Option String) : Option Int :=
  match v with
  | Option.none => Option.none
  | Option.some s => if s = "" then Option.none else pyIntParse ⟨(pyStrip s).data.take 4⟩

/-- `_first_value(value)` on the list-valued tags of this model. -/
def firstValue (v : Option (List String)) : Option String :=
  match v with
  | Option.none => Option.none
  | Option.some [] => Option.none
  | Option.some (x :: _) => Option.some x

/-- `_id3_text(tag)`: `None` without a frame or with an empty text list,
else the first text. -/
def id3Text (tag : Option (List String)) : Option String :=
  match tag with
  | Option.none => Option.none
  | Option.some [] => Option.none
  | Option.some (x :: _) => Option.some x

/-- `tags.get(key)` on an association-list tag map. -/
def tagGet (tags : List (String × List String)) (k : String) : Option (List String) :=
  (tags.find? (fun e => e.1 == k)).map Prod.snd

/-- Python `a or b` on optional tag-value lists (`None` and `[]` are falsy). -/
def pyOrList (a b : Option (List String)) : Option (List String) :=
  match a with
  | Option.some l => if l = [] then b else Option.some l
  | Option.none => b

/-- Python `a or b` on optional ID3 frame objects (a present frame object is
truthy regardless of its text). -/
def pyOrFrame (a b : Option (List String)) : Option (List String) :=
  match a with
  | Option.some f => Option.some f
  | Option.none => b

/-- Python `s.split('/')[0]`. -/
def splitSlashHead (s : String) : String := ⟨s.data.takeWhile (fun c => c ≠ '/')⟩

/-- Python `s.startswith(p)`. -/
def strStartsWith (s p : String) : Bool := p.data.isPrefixOf s.data

/-- Python `int(float)`: truncation toward zero. -/
def ratTrunc (q : ℚ) : Int := if 0 ≤ q then ⌊q⌋ else ⌈q⌉

/-- `sorted(keys)` by code point. -/
def strLeOrd (a b : String) : Prop := cmpCharList a.data b.data ≠ .gt

instance : DecidableRel strLeOrd := fun a b =>
  inferInstanceAs (Decidable (cmpCharList a.data b.data ≠ .gt))

/-- `sorted(...)` on a list of strings. -/
def sortedStrings (l : List String) : List String := List.insertionSort strLeOrd l

/-- An optional string as a dictionary value. -/
def optStrVal (v : Option String) : PyVal :=
  match v with
  | Option.none => .none
  | Option.some s => .str s

/-- An optional integer as a dictionary value. -/
def optIntVal (v : Option Int) : PyVal :=
  match v with
  | Option.none => .none
  | Option.some n => .int n

/-- The raw MP4 atoms of a file: string-valued atoms, the trkn/disk tuple
lists, the cover list, and `audio.keys()`. -/
structure MP4Content where
  textAtoms : List (String × List String)
  trkn : List (List Int)
  disk : List (List Int)
  covr : List Nat
  atomKeys : List String
deriving DecidableEq

/-- The ID3 frames of a file (frame id to text list; APIC frames appear as
keys starting with "APIC"). -/
structure ID3Content where
  frames : List (String × List String)
deriving DecidableEq

/-- FLAC / OggVorbis comments (`audio.tags` may be `None`) plus the FLAC
picture list. -/
structure VorbisContent where
  isFlac : Bool
  tags : Option (List (String × List String))
  pictures : List Nat
deriving DecidableEq

/-- The outcome of `MutagenFile(audio_path)` as `read_metadata` observes it:
an exception, `None` (unrecognized file), or a tagged container with its
stream length. `format` strings abstract `type(audio).__name__`. -/
inductive AudioProbe where
  | raised
  | notAudio
  | mp4 (c : MP4Content) (len : Option ℚ)
  | id3 (c : ID3Content) (len : Option ℚ)
  | vorbis (c : VorbisContent) (len : Option ℚ)
  | dictTags (tagKeys : List String) (len : Option ℚ)
  | bare (len : Option ℚ)
deriving DecidableEq

/-- The shared tail of `read_metadata`: set `duration` when the stream
reports a length. -/
def setDuration (d : PyDict) (len : Option ℚ) : PyDict :=
  dictSetOpt d "duration" (len.map (fun q => .int (ratTrunc q)))

/-- `read_metadata(audio_path)`: build the normalized dictionary, returning
the defaults untouched when the file cannot be opened (`MutagenFile` raised
or returned `None`). -/
def readMetadata (audio : AudioProbe) : PyDict :=
  match audio with
  | .raised => initialMetadata
  | .notAudio => initialMetadata
  | .mp4 c len =>
    let d := dictSet initialMetadata "format" (.str "MP4")
    let d := dictSet d "tag_keys" (.strList (sortedStrings c.atomKeys))
    let d := dictSet d "title" (optStrVal (firstValue (tagGet c.textAtoms "©nam")))
    let d := dictSet d "artist" (optStrVal (firstValue (tagGet c.textAtoms "©ART")))
    let d := dictSet d "album" (optStrVal (firstValue (tagGet c.textAtoms "©alb")))
    let d := dictSet d "album_artist" (optStrVal (firstValue (tagGet c.textAtoms "aART")))
    let d := dictSet d "genre" (optStrVal (firstValue
      (pyOrList (tagGet c.textAtoms "©gen") (tagGet c.textAtoms "gnre"))))
    let d := dictSet d "year" (optIntVal (parseYearOpt
      (firstValue (tagGet c.textAtoms "©day"))))
    let d := dictSetOpt d "track_number"
      (match c.trkn with
       | t0 :: _ =>
         match t0 with
         | v :: _ => Option.some (.int v)
         | [] => Option.none
       | [] => Option.none)
    let d := dictSetOpt d "disc_number"
      (match c.disk with
       | t0 :: _ =>
         match t0 with
         | v :: _ => Option.some (.int v)
         | [] => Option.none
       | [] => Option.none)
    let d := dictSet d "has_artwork"
      (.bool (decide ("covr" ∈ c.atomKeys) && !(c.covr == [])))
    setDuration d len
  | .id3 c len =>
    let d := dictSet initialMetadata "format" (.str "MP3")
    let d := dictSet d "tag_keys" (.strList (sortedStrings (c.frames.map Prod.fst)))
    let d := dictSet d "title" (optStrVal (id3Text (tagGet c.frames "TIT2")))
    let d := dictSet d "artist" (optStrVal (id3Text (tagGet c.frames "TPE1")))
    let d := dictSet d "album" (optStrVal (id3Text (tagGet c.frames "TALB")))
    let d := dictSet d "album_artist" (optStrVal (id3Text (tagGet c.frames "TPE2")))
    let d := dictSet d "genre" (optStrVal (id3Text (tagGet c.frames "TCON")))
    let d := dictSet d "year" (optIntVal (parseYearOpt
      (id3Text (pyOrFrame (tagGet c.frames "TDRC") (tagGet c.frames "TYER")))))
    let d := dictSetOpt d "track_number"
      (match id3Text (tagGet c.frames "TRCK") with
       | Option.some s =>
         if s = "" then Option.none
         else Option.some (optIntVal (pyIntParse (splitSlashHead s)))
       | Option.none => Option.none)
    let d := dictSetOpt d "disc_number"
      (match id3Text (tagGet c.frames "TPOS") with
       | Option.some s =>
         if s = "" then Option.none
         else Option.some (optIntVal (pyIntParse (splitSlashHead s)))
       | Option.none => Option.none)
    let d := dictSet d "has_artwork"
      (.bool ((c.frames.map Prod.fst).any (fun k => strStartsWith k "APIC")))
    setDuration d len
  | .vorbis c len =>
    let tags := c.tags.getD []
    let d := dictSet initialMetadata "format"
      (.str (if c.isFlac then "FLAC" else "OggVorbis"))
    let d := dictSet d "tag_keys" (.strList (sortedStrings (tags.map Prod.fst)))
    let d := dictSet d "title" (optStrVal (firstValue (tagGet tags "title")))
    let d := dictSet d "artist" (optStrVal (firstValue (tagGet tags "artist")))
    let d := dictSet d "album" (optStrVal (firstValue (tagGet tags "album")))
    let d := dictSet d "album_artist" (optStrVal (firstValue (tagGet tags "albumartist")))
    let d := dictSet d "genre" (optStrVal (firstValue (tagGet tags "genre")))
    let d := dictSet d "year" (optIntVal (parseYearOpt (firstValue (tagGet tags "date"))))
    let d := dictSet d "track_number"
      (optIntVal (parseIntOpt (firstValue (tagGet tags "tracknumber"))))
    let d := dictSet d "disc_number"
      (optIntVal (parseIntOpt (firstValue (tagGet tags "discnumber"))))
    let d := if c.isFlac then dictSet d "has_artwork" (.bool (!(c.pictures == []))) else d
    setDuration d len
  | .dictTags tagKeys len =>
    let d := dictSet initialMetadata "format" (.str "Other")
    let d := dictSet d "tag_keys" (.strList (sortedStrings tagKeys))
    setDuration d len
  | .bare len =>
    let d := dictSet initialMetadata "format" (.str "Unknown")
    setDuration d len

/-- The keys claim C10 requires. -/
def requiredMetadataKeys : List String :=
  ["title", "artist", "album", "album_artist", "genre", "year", "track_number",
   "disc_number", "duration", "has_artwork"]

theorem setDuration_keys (d : PyDict) (len : Option ℚ) :
    (setDuration d len).map Prod.fst = d.map Prod.fst := by
  unfold setDuration
  exact dictSetOpt_keys d _ _

/-- Claim C10: `read_metadata` is total (the shallow model returns a
dictionary for every probe outcome, exceptions included); the returned
dictionary always carries exactly the initial keys, hence all ten required
keys; and when the file cannot be opened every field is None and
`has_artwork` is False (the defaults). -/
theorem read_metadata_contract (audio : AudioProbe) :
    (readMetadata audio).map Prod.fst = initialMetadata.map Prod.fst ∧
    (∀ k ∈ requiredMetadataKeys, k ∈ (readMetadata audio).map Prod.fst) ∧
    ((audio = .raised ∨ audio = .notAudio) → readMetadata audio = initialMetadata) := by
  have hkeys : (readMetadata audio).map Prod.fst = initialMetadata.map Prod.fst := by
    cases audio <;>
      simp only [readMetadata, setDuration_keys, dictSet_keys, dictSetOpt_keys] <;>
      first
        | rfl
        | (split_ifs <;> simp only [setDuration_keys, dictSet_keys, dictSetOpt_keys])
  refine ⟨hkeys, ?_, ?_⟩
  · intro k hk
    rw [hkeys]
    revert hk
    revert k
    decide
  · rintro (h | h) <;> rw [h] <;> rfl

/-- Witness for `read_metadata_contract`: an unreadable file yields the
default dictionary, which contains the "title" key. -/
theorem read_metadata_contract_witness :
    readMetadata .notAudio = initialMetadata ∧
    "title" ∈ (readMetadata .notAudio).map Prod.fst :=
  ⟨(read_metadata_contract .notAudio).2.2 (Or.inr rfl),
    (read_metadata_contract .notAudio).2.1 "title" (by decide)⟩


/-! ## Model of src/app/metadata_processor.py: update_metadata_safe (claim C1)

The mutagen tag layer is abstracted as a `Codec`: `save` models opening the
temporary copy, assigning the supplied fields and saving (`Option.none` when
`MutagenFile` returns None or saving raises), and `readBack` models the
subsequent `read_metadata` used by `_verify_written_metadata`. The claim
quantifies over codec behaviours; round-trip verification exists precisely
because `readBack ∘ save` may not restore the written fields. -/

/-- The optional fields of `update_metadata_safe` and the metadata read back
for verification. -/
structure TagFields where
  title : Option String
  artist : Option String
  album : Option String
  albumArtist : Option String
  genre : Option String
  year : Option Int
  trackNumber : Option Int
  discNumber : Option Int
deriving DecidableEq, Repr

/-- All-`None` fields. -/
def emptyFields : TagFields :=
  ⟨Option.none, Option.none, Option.none, Option.none, Option.none, Option.none,
   Option.none, Option.none⟩

/-- One audio file: its embedded tag state, an abstract audio payload, and
the stat data (size, modification time) that feeds the fingerprint. -/
structure AudioData where
  tags : TagFields
  body : Nat
  size : Nat
  mtime : String
deriving DecidableEq, Repr

/-- The abstract tag codec (mutagen). -/
structure Codec where
  save : AudioData → TagFields → Option AudioData
  readBack : AudioData → TagFields

/-- A filesystem: the association of existing paths to file contents. -/
def AudioFs : Type := List (String × AudioData)

instance : DecidableEq AudioFs := inferInstanceAs (DecidableEq (List (String × AudioData)))

/-- Read the file at `p`. -/
def fsGet (fs : AudioFs) (p : String) : Option AudioData :=
  (fs.find? (fun e => e.1 == p)).map Prod.snd

/-- Write (create or replace) the file at `p`. -/
def fsSet : AudioFs → String → AudioData → AudioFs
  | [], p, d => [(p, d)]
  | e :: rest, p, d => if e.1 == p then (p, d) :: rest else e :: fsSet rest p d

/-- Delete the file at `p`. -/
def fsRemove (fs : AudioFs) (p : String) : AudioFs :=
  fs.filter (fun e => !(e.1 == p))

theorem fsGet_fsSet_self (fs : AudioFs) (p : String) (d : AudioData) :
    fsGet (fsSet fs p d) p = Option.some d := by
  induction fs with
  | nil => simp [fsSet, fsGet]
  | cons e rest ih =>
    by_cases hc : (e.1 == p) = true
    · simp [fsSet, fsGet, List.find?, hc]
    · have hc' : (e.1 == p) = false := by simpa using hc
      simpa [fsSet, fsGet, List.find?, hc'] using ih

theorem fsGet_fsSet_ne (fs : AudioFs) {p q : String} (d : AudioData) (h : q ≠ p) :
    fsGet (fsSet fs p d) q = fsGet fs q := by
  have hpq : (p == q) = false := beq_eq_false_iff_ne.2 (fun e => h e.symm)
  induction fs with
  | nil => simp [fsSet, fsGet, List.find?, hpq]
  | cons e rest ih =>
    by_cases hc : (e.1 == p) = true
    · have he : e.1 = p := eq_of_beq hc
      have heq : (e.1 == q) = false := by rw [he]; exact hpq
      simp [fsSet, fsGet, List.find?, hc, hpq, heq]
    · have hc' : (e.1 == p) = false := by simpa using hc
      by_cases hq : (e.1 == q) = true
      · simp [fsSet, fsGet, List.find?, hc', hq]
      · have hq' : (e.1 == q) = false := by simpa using hq
        simpa [fsSet, fsGet, List.find?, hc', hq'] using ih

/-- One field comparison of `_verify_written_metadata` (string fields:
`str(actual or "").strip() != str(expected).strip()`; `None` expectations
are skipped). -/
def verifyStrField (expected actual : Option String) : Bool :=
  match expected with
  | Option.none => true
  | Option.some e => pyStrip (actual.getD "") == pyStrip e

/-- Numeric field comparison (`_parse_int` of both sides; the expected side
is already an integer). -/
def verifyIntField (expected actual : Option Int) : Bool :=
  match expected with
  | Option.none => true
  | Option.some e => actual == Option.some e

/-- `_verify_written_metadata(audio_path, expected)`: re-read the file and
compare every supplied field. -/
def verifyWrittenMetadata (c : Codec) (d : AudioData) (f : TagFields) : Bool :=
  verifyStrField f.title (c.readBack d).title &&
  verifyStrField f.artist (c.readBack d).artist &&
  verifyStrField f.album (c.readBack d).album &&
  verifyStrField f.albumArtist (c.readBack d).albumArtist &&
  verifyStrField f.genre (c.readBack d).genre &&
  verifyIntField f.year (c.readBack d).year &&
  verifyIntField f.trackNumber (c.readBack d).trackNumber &&
  verifyIntField f.discNumber (c.readBack d).discNumber

/-- `update_metadata_safe(audio_path, …fields…)`: copy to a temporary file,
write the supplied fields there, atomically replace the original
(`shutil.move`), and only then verify the round trip. An unreadable file or
a raising save leaves the filesystem unchanged (the temporary copy is
deleted by the `finally` block); a verification failure reports `False`
AFTER the replacement has already happened. -/
def updateMetadataSafe (c : Codec) (fs : AudioFs) (path : String) (fields : TagFields) :
    Bool × AudioFs :=
  match fsGet fs path with
  | Option.none => (false, fs)
  | Option.some content =>
    match c.save content fields with
    | Option.none => (false, fs)
    | Option.some written =>
      if verifyWrittenMetadata c written fields then (true, fsSet fs path written)
      else (false, fsSet fs path written)

/-- Claim C1, amended: when the post-write round-trip verification fails,
`update_metadata_safe` reports failure, but the staged file at `audio_path`
has already been atomically replaced by the fully-written temporary copy —
it is fully written, not half-written, but not byte-identical to its state
before the call. When the save itself raises (or the file cannot be opened),
the filesystem is unchanged. -/
theorem update_metadata_safe_verify_fail (c : Codec) (fs : AudioFs) (path : String)
    (fields : TagFields) (content written : AudioData)
    (hget : fsGet fs path = Option.some content)
    (hsave : c.save content fields = Option.some written)
    (hverify : verifyWrittenMetadata c written fields = false) :
    (updateMetadataSafe c fs path fields).1 = false ∧
    fsGet (updateMetadataSafe c fs path fields).2 path = Option.some written ∧
    (∀ c' fs' path' fields' content', fsGet fs' path' = Option.some content' →
      Codec.save c' content' fields' = Option.none →
      updateMetadataSafe c' fs' path' fields' = (false, fs')) := by
  refine ⟨?_, ?_, ?_⟩
  · simp [updateMetadataSafe, hget, hsave, hverify]
  · simp [updateMetadataSafe, hget, hsave, hverify, fsGet_fsSet_self]
  · intro c' fs' path' fields' content' hget' hsave'
    simp [updateMetadataSafe, hget', hsave']

/-- Concrete data for the C1 counterexample. -/
def origAudio : AudioData := ⟨emptyFields, 7, 100, "1700000000.0"⟩

/-- The supplied fields of the counterexample: only a title. -/
def titleOnlyFields : TagFields :=
  { emptyFields with title := Option.some "T" }

/-- A realizable codec defect: the save writes the fields, but reading the
file back loses the title, so round-trip verification fails. -/
def lossyCodec : Codec where
  save := fun d f =>
    Option.some { d with tags := { d.tags with title := f.title }, size := d.size + 1 }
  readBack := fun d => { d.tags with title := Option.none }

/-- Claim C1 counterexample: with `lossyCodec`, updating the staged file at
"staging/u1/a.mp3" reports failure, yet the staged file is no longer
byte-identical to its pre-call state — the claim's "left unchanged" is false
on the code, because the atomic replace precedes verification. -/
theorem update_metadata_safe_cx :
    (updateMetadataSafe lossyCodec [("staging/u1/a.mp3", origAudio)]
      "staging/u1/a.mp3" titleOnlyFields).1 = false ∧
    fsGet (updateMetadataSafe lossyCodec [("staging/u1/a.mp3", origAudio)]
      "staging/u1/a.mp3" titleOnlyFields).2 "staging/u1/a.mp3" ≠ Option.some origAudio := by
  constructor
  · decide
  · decide

/-- Witness for `update_metadata_safe_verify_fail` at the concrete
counterexample instance. -/
theorem update_metadata_safe_verify_fail_witness :
    (updateMetadataSafe lossyCodec [("staging/u1/a.mp3", origAudio)]
        "staging/u1/a.mp3" titleOnlyFields).1 = false ∧
    fsGet (updateMetadataSafe lossyCodec [("staging/u1/a.mp3", origAudio)]
        "staging/u1/a.mp3" titleOnlyFields).2 "staging/u1/a.mp3"
      = Option.some { origAudio with
          tags := { origAudio.tags with title := Option.some "T" },
          size := origAudio.size + 1 } := by
  have h := update_metadata_safe_verify_fail lossyCodec
    [("staging/u1/a.mp3", origAudio)] "staging/u1/a.mp3" titleOnlyFields origAudio
    { origAudio with
        tags := { origAudio.tags with title := Option.some "T" },
        size := origAudio.size + 1 }
    (by decide) (by decide) (by decide)
  exact ⟨h.1, h.2.1⟩


/-! ## Model of src/app/scanner.py, database.py and api.py (claims C2, C3, C4, C6) -/

/-- The `status` column of `pending_items`. -/
inductive ItemStatus where
  | pending
  | error
  | needsManual
  | done
deriving DecidableEq, Repr

/-- One `PendingItem` row. -/
structure Item where
  id : Nat
  originalPath : String
  currentPath : String
  videoTitle : String
  channel : String
  extension : String
  inferredTitle : Option String
  inferredArtist : Option String
  currentTitle : Option String
  currentArtist : Option String
  genre : Option String
  artworkPath : Option String
  errorMessage : Option String
  fileIdentifier : Option String
  rawGeminiResponse : Option String
  status : ItemStatus
deriving DecidableEq, Repr

/-- The whole system: the filesystem (intake, staging and library files) and
the `pending_items` table with its id counter. -/
structure SysState where
  fs : AudioFs
  items : List Item
  nextId : Nat
deriving DecidableEq

/-- Python truthiness of an optional string (`None` and `""` are falsy). -/
def optTruthy (o : Option String) : Bool := !(o.getD "" == "")

/-- Python `a or b` on optional strings. -/
def pyOrOpt (a b : Option String) : Option String := if optTruthy a then a else b

/-- Python `a or dflt` collapsed to a string. -/
def pyStrOr (o : Option String) (dflt : String) : String :=
  if optTruthy o then o.getD "" else dflt

/-- The final path component (`Path(p).name`). -/
def baseName (path : String) : String :=
  ⟨(path.data.reverse.takeWhile (fun c => c ≠ '/')).reverse⟩

/-- `Path(name).stem`: the name without its final suffix; a suffix exists only
when the last dot is neither the first nor the last character. -/
def pyStem (name : String) : String :=
  if (name.data.reverse.takeWhile (fun c => c ≠ '.')).length = name.data.length then name
  else if (name.data.reverse.takeWhile (fun c => c ≠ '.')) = [] then name
  else if (name.data.reverse.takeWhile (fun c => c ≠ '.')).length + 1 = name.data.length
    then name
  else
    ⟨(name.data.reverse.drop
      ((name.data.reverse.takeWhile (fun c => c ≠ '.')).length + 1)).reverse⟩

/-- `Path(name).suffix`: the final extension including its dot, or "". -/
def pySuffix (name : String) : String :=
  if (name.data.reverse.takeWhile (fun c => c ≠ '.')).length = name.data.length then ""
  else if (name.data.reverse.takeWhile (fun c => c ≠ '.')) = [] then ""
  else if (name.data.reverse.takeWhile (fun c => c ≠ '.')).length + 1 = name.data.length
    then ""
  else ⟨'.' :: (name.data.reverse.takeWhile (fun c => c ≠ '.')).reverse⟩

/-- First occurrence of "###" (`'###' in s` plus `s.split('###', 1)`). -/
def splitHashAux : List Char → List Char → Option (List Char × List Char)
  | _, [] => Option.none
  | acc, '#' :: '#' :: '#' :: rest => Option.some (acc.reverse, rest)
  | acc, c :: rest => splitHashAux (c :: acc) rest

/-- `parse_filename(filename)`: strip the extension, split on the first
"###", strip both halves, and fail on a missing separator or an empty half. -/
def parseFilename (filename : String) : Option (String × String) :=
  match splitHashAux [] (pyStem filename).data with
  | Option.none => Option.none
  | Option.some (pre, post) =>
    if pyStrip ⟨pre⟩ = "" ∨ pyStrip ⟨post⟩ = "" then Option.none
    else Option.some (pyStrip ⟨pre⟩, pyStrip ⟨post⟩)

/-- `compute_file_identifier`: the sha256 of `f"{path}|{size}|{mtime}"`. The
digest is modelled by its pre-image: the program only compares fingerprints
for equality, and the model treats the hash as injective. -/
def fingerprintOf (path : String) (d : AudioData) : String :=
  path ++ "|" ++ decimalRepr d.size ++ "|" ++ d.mtime

/-- config.STAGING_DIR. The constant is referenced by scanner.py and asserted
by test_critical_fixes.py (a path under DATA_DIR ending in "staging") but is
absent from src/app/config.py; its exact value is irrelevant to the claims. -/
def stagingRoot : String := "/data/staging"

/-- config.ARTWORK_DIR. -/
def artworkDir : String := "/data/artwork"

/-- The genre sentinel "أخرى…" rejected by validation (alef-hamza khah reh
alef-maksura, then the ellipsis). -/
def otherSentinel : String :=
  ⟨[Char.ofNat 0x623, Char.ofNat 0x62E, Char.ofNat 0x631, Char.ofNat 0x649,
    Char.ofNat 0x2026]⟩

/-- The parameters of `DatabaseManager.create_pending_item`. -/
structure CreateArgs where
  originalPath : String
  currentPath : String
  videoTitle : String
  channel : String
  extension : String
  inferredTitle : Option String
  inferredArtist : Option String
  artworkPath : Option String
  errorMessage : Option String
  fileIdentifier : Option String
  rawGeminiResponse : Option String
  status : Option ItemStatus
deriving DecidableEq

/-- The status-defaulting block of `create_pending_item`. -/
def resolveStatus (a : CreateArgs) : ItemStatus :=
  match a.status with
  | Option.some st => st
  | Option.none =>
    if optTruthy a.errorMessage && optTruthy a.rawGeminiResponse then .needsManual
    else if optTruthy a.errorMessage then .error
    else .pending

/-- `create_pending_item`: return the existing row on a fingerprint match
(when a truthy fingerprint was supplied) or an original-path match, else
insert a new row (with `current_title`/`current_artist` initialized from the
inferred fields). -/
def createPendingItem (items : List Item) (nid : Nat) (a : CreateArgs) :
    List Item × Nat :=
  if optTruthy a.fileIdentifier &&
      items.any (fun it => it.fileIdentifier == a.fileIdentifier) then
    (items, nid)
  else if items.any (fun it => it.originalPath == a.originalPath) then
    (items, nid)
  else
    (items ++ [⟨nid, a.originalPath, a.currentPath, a.videoTitle, a.channel, a.extension,
      a.inferredTitle, a.inferredArtist, a.inferredTitle, a.inferredArtist, Option.none,
      a.artworkPath, a.errorMessage, a.fileIdentifier, a.rawGeminiResponse,
      resolveStatus a⟩], nid + 1)


/-- Environment choices for one `process_file` call: the staging UUID, which
I/O steps fail, the artwork-extraction outcome, the Gemini call outcome
(`infer_metadata` returns `(title, artist, error, raw)`), and whether
`apply_metadata` succeeds. -/
structure ScanEnv where
  uuid : String
  mkdirFails : Bool
  copyFails : Bool
  errText : String
  artworkOk : Bool
  geminiTitle : Option String
  geminiArtist : Option String
  geminiError : Option String
  geminiRaw : String
  applyOk : Bool
deriving DecidableEq

/-- `gemini_title.strip() if gemini_title else None`. -/
def stripIfTruthy (g : Option String) : Option String :=
  match g with
  | Option.some s => if s == "" then Option.none else Option.some (pyStrip s)
  | Option.none => Option.none

/-- The staged copy's path for this call. -/
def stagedPathOf (env : ScanEnv) (path : String) : String :=
  stagingRoot ++ "/" ++ env.uuid ++ "/" ++ baseName path

/-- The artwork cache file for this call (`{md5(identifier)[:8]}_{stem}.jpg`;
the md5 prefix is modelled by the fingerprint itself). -/
def artworkFileOf (path : String) (d : AudioData) : String :=
  artworkDir ++ "/" ++ fingerprintOf path d ++ "_" ++ pyStem (baseName path) ++ ".jpg"

/-- `apply_metadata(staged, title, artist, album=title, genre=…)`: the tags
written by the scanner's initial tagging (year/track/disc re-write their
existing values, leaving them unchanged). -/
def applyScanTags (t : TagFields) (title artist : String) (genre : Option String) :
    TagFields :=
  { t with
    title := Option.some title
    artist := Option.some artist
    album := Option.some title
    albumArtist := Option.some artist
    genre := if optTruthy genre then genre else t.genre }

/-- `FileScanner.process_file(file_path)`. In order: fingerprint the intake
file (an unreadable file aborts with no record: the except-handler's own
`compute_file_identifier` raises again); return unchanged on a fingerprint
match, then on an original-path match; stage a copy; extract artwork; read
the embedded tags; parse the filename (fallback `needs_manual` entry on
failure); fill title/artist from embedded tags, then Gemini; create a
`needs_manual` entry when either is still missing; otherwise tag the staged
copy (`needs_manual` entry on failure) and create the `pending` record.
A `mkdir` failure before `staged_path` is assigned records an error item
whose `current_path` is the INTAKE path itself; a `copy2` failure records an
error item pointing at the never-created staging path. -/
def processFile (env : ScanEnv) (s : SysState) (path : String) : SysState :=
  match fsGet s.fs path with
  | Option.none => s
  | Option.some content =>
    if s.items.any (fun it =>
        it.fileIdentifier == Option.some (fingerprintOf path content)) then s
    else if s.items.any (fun it => it.originalPath == path) then s
    else if env.mkdirFails then
      let r := createPendingItem s.items s.nextId
        { originalPath := path
          currentPath := path
          videoTitle := pyStem (baseName path)
          channel := "Unknown"
          extension := pySuffix (baseName path)
          inferredTitle := Option.none
          inferredArtist := Option.none
          artworkPath := Option.none
          errorMessage := Option.some ("Processing error: " ++ env.errText)
          fileIdentifier := Option.some (fingerprintOf path content)
          rawGeminiResponse := Option.none
          status := Option.some .error }
      { s with items := r.1, nextId := r.2 }
    else if env.copyFails then
      let r := createPendingItem s.items s.nextId
        { originalPath := path
          currentPath := stagedPathOf env path
          videoTitle := pyStem (baseName path)
          channel := "Unknown"
          extension := pySuffix (baseName path)
          inferredTitle := Option.none
          inferredArtist := Option.none
          artworkPath := Option.none
          errorMessage := Option.some ("Processing error: " ++ env.errText)
          fileIdentifier := Option.some (fingerprintOf path content)
          rawGeminiResponse := Option.none
          status := Option.some .error }
      { s with items := r.1, nextId := r.2 }
    else
      let fs₁ := fsSet s.fs (stagedPathOf env path) content
      let artworkPath : Option String :=
        if env.artworkOk then Option.some (artworkFileOf path content) else Option.none
      match parseFilename (baseName path) with
      | Option.none =>
        let r := createPendingItem s.items s.nextId
          { originalPath := path
            currentPath := stagedPathOf env path
            videoTitle := pyStem (baseName path)
            channel := "Unknown"
            extension := pySuffix (baseName path)
            inferredTitle :=
              Option.some (pyStrOr content.tags.title (pyStem (baseName path)))
            inferredArtist := Option.some (pyStrOr content.tags.artist "")
            artworkPath := artworkPath
            errorMessage := Option.some "Failed to parse filename - please edit manually"
            fileIdentifier := Option.some (fingerprintOf path content)
            rawGeminiResponse := Option.none
            status := Option.some .needsManual }
        { fs := fs₁, items := r.1, nextId := r.2 }
      | Option.some (vt, ch) =>
        let title0 : Option String :=
          if pyStrip (content.tags.title.getD "") = "" then Option.none
          else Option.some (pyStrip (content.tags.title.getD ""))
        let artist0 : Option String :=
          if pyStrip (content.tags.artist.getD "") = "" then Option.none
          else Option.some (pyStrip (content.tags.artist.getD ""))
        let step :=
          if optTruthy title0 && optTruthy artist0 then
            (title0, artist0, (Option.none : Option String), "")
          else
            (pyOrOpt title0 (stripIfTruthy env.geminiTitle),
             pyOrOpt artist0 (stripIfTruthy env.geminiArtist),
             env.geminiError, env.geminiRaw)
        if !(optTruthy step.1 && optTruthy step.2.1) then
          let r := createPendingItem s.items s.nextId
            { originalPath := path
              currentPath := stagedPathOf env path
              videoTitle := vt
              channel := ch
              extension := pySuffix (baseName path)
              inferredTitle := Option.some (pyStrOr step.1 vt)
              inferredArtist := Option.some (pyStrOr step.2.1 ch)
              artworkPath := artworkPath
              errorMessage :=
                Option.some ("Metadata detection failed: " ++
                  pyStrOr step.2.2.1 "Incomplete data")
              fileIdentifier := Option.some (fingerprintOf path content)
              rawGeminiResponse := Option.some step.2.2.2
              status := Option.some .needsManual }
          { fs := fs₁, items := r.1, nextId := r.2 }
        else if env.applyOk then
          let fs₂ := fsSet fs₁ (stagedPathOf env path)
            { content with
              tags :=
                applyScanTags content.tags (step.1.getD "") (step.2.1.getD "")
                  content.tags.genre }
          let r := createPendingItem s.items s.nextId
            { originalPath := path
              currentPath := stagedPathOf env path
              videoTitle := vt
              channel := ch
              extension := pySuffix (baseName path)
              inferredTitle := step.1
              inferredArtist := step.2.1
              artworkPath := artworkPath
              errorMessage := Option.none
              fileIdentifier := Option.some (fingerprintOf path content)
              rawGeminiResponse := Option.some step.2.2.2
              status := Option.some .pending }
          { fs := fs₂, items := r.1, nextId := r.2 }
        else
          let r := createPendingItem s.items s.nextId
            { originalPath := path
              currentPath := stagedPathOf env path
              videoTitle := vt
              channel := ch
              extension := pySuffix (baseName path)
              inferredTitle := step.1
              inferredArtist := step.2.1
              artworkPath := artworkPath
              errorMessage :=
                Option.some "Failed to apply metadata tags - please check file"
              fileIdentifier := Option.some (fingerprintOf path content)
              rawGeminiResponse := Option.some step.2.2.2
              status := Option.some .needsManual }
          { fs := fs₁, items := r.1, nextId := r.2 }


/-- `update_item_error`: set status and error message on one row. -/
def setItemError (items : List Item) (i : Nat) (msg : String) : List Item :=
  items.map (fun it =>
    if it.id == i then
      { it with status := .error, errorMessage := Option.some msg }
    else it)

/-- `mark_as_done`: set status done, move `current_path`, clear the error. -/
def markItemDone (items : List Item) (i : Nat) (newPath : String) : List Item :=
  items.map (fun it =>
    if it.id == i then
      { it with status := .done, currentPath := newPath, errorMessage := Option.none }
    else it)

/-- The request body of `update_item`. -/
structure EditArgs where
  title : Option String
  artist : Option String
  genre : Option String
deriving DecidableEq

/-- Title/artist over-length validation of `update_item`. -/
def editFieldInvalid (v : Option String) : Bool :=
  match v with
  | Option.some t => decide (300 < (pyStrip t).length)
  | Option.none => false

/-- Genre validation of `update_item`: the "أخرى…" sentinel and the
200-character limit. -/
def editGenreInvalid (v : Option String) : Bool :=
  match v with
  | Option.some g => (pyStrip g == otherSentinel) || decide (200 < (pyStrip g).length)
  | Option.none => false

/-- `update_item` (api.py): validate lengths and the genre sentinel (an HTTP
400 leaves the state unchanged), then update the supplied fields on the row. -/
def updateItem (s : SysState) (i : Nat) (r : EditArgs) : SysState :=
  if editFieldInvalid r.title then s
  else if editFieldInvalid r.artist then s
  else if editGenreInvalid r.genre then s
  else
    { s with items := s.items.map (fun it =>
        if it.id == i then
          { it with
            currentTitle :=
              match r.title with
              | Option.some t => Option.some (pyStrip t)
              | Option.none => it.currentTitle
            currentArtist :=
              match r.artist with
              | Option.some t => Option.some (pyStrip t)
              | Option.none => it.currentArtist
            genre :=
              match r.genre with
              | Option.some g => Option.some (pyStrip g)
              | Option.none => it.genre }
        else it) }

/-- Environment choices for one `confirm_item` call: the tag codec behaviour
and whether `move_to_navidrome`'s rename succeeds. -/
structure ConfirmEnv where
  codec : Codec
  moveOk : Bool

/-- `confirm_item` (api.py): reject unknown ids, a `done` status (only
pending/error/needs_manual may confirm), missing title/artist/genre, the
genre sentinel, an over-long genre, or a missing staged file; then (artwork
embedding is best-effort and skipped here for items without artwork) apply
the final metadata through `update_metadata_safe` — on failure the item goes
to `error` with the filesystem as the failed update left it; then move the
file to the library — on failure the item goes to `error`; on success mark
done and delete the intake original if it still exists. -/
def confirmItem (env : ConfirmEnv) (s : SysState) (i : Nat) : SysState :=
  match s.items.find? (fun it => it.id == i) with
  | Option.none => s
  | Option.some item =>
    if item.status = .done then s
    else if pyStrip (item.currentTitle.getD "") = "" then s
    else if pyStrip (item.currentArtist.getD "") = "" then s
    else if pyStrip (item.genre.getD "") = "" then s
    else if pyStrip (item.genre.getD "") = otherSentinel then s
    else if 200 < (pyStrip (item.genre.getD "")).length then s
    else
      match fsGet s.fs item.currentPath with
      | Option.none => s
      | Option.some _ =>
        let title := pyStrip (item.currentTitle.getD "")
        let artist := pyStrip (item.currentArtist.getD "")
        let genre := pyStrip (item.genre.getD "")
        let fields : TagFields :=
          { title := Option.some title
            artist := Option.some artist
            album := Option.some title
            albumArtist := Option.some artist
            genre := Option.some genre
            year := Option.none
            trackNumber := Option.none
            discNumber := Option.none }
        let upd := updateMetadataSafe env.codec s.fs item.currentPath fields
        if !upd.1 then
          { s with fs := upd.2, items := setItemError s.items i "Failed to apply metadata" }
        else
          let dest := buildDestinationPath (upd.2.map Prod.fst) artist title item.extension
          if env.moveOk then
            match fsGet upd.2 item.currentPath with
            | Option.none => s
            | Option.some moved =>
              let fs₃ := fsSet (fsRemove upd.2 item.currentPath) dest moved
              let fs₄ :=
                if (fsGet fs₃ item.originalPath).isSome then fsRemove fs₃ item.originalPath
                else fs₃
              { s with fs := fs₄, items := markItemDone s.items i dest }
          else
            { s with fs := upd.2, items := setItemError s.items i "Failed to move file" }

/-- `delete_item` (api.py): remove the staged file, the intake original and
the artwork (artwork lives outside this filesystem model), then the row. -/
def deleteItem (s : SysState) (i : Nat) : SysState :=
  match s.items.find? (fun it => it.id == i) with
  | Option.none => s
  | Option.some item =>
    let fs₁ :=
      if (fsGet s.fs item.currentPath).isSome then fsRemove s.fs item.currentPath
      else s.fs
    let fs₂ :=
      if (fsGet fs₁ item.originalPath).isSome then fsRemove fs₁ item.originalPath
      else fs₁
    { s with fs := fs₂, items := s.items.filter (fun it => !(it.id == i)) }

/-- One observable operation of the system: a scanner pass over one file, a
human edit, a confirm, or a delete, each with its environment choices. -/
inductive Step : SysState → SysState → Prop
  | scan (env : ScanEnv) (path : String) (s : SysState) : Step s (processFile env s path)
  | edit (i : Nat) (r : EditArgs) (s : SysState) : Step s (updateItem s i r)
  | confirm (env : ConfirmEnv) (i : Nat) (s : SysState) : Step s (confirmItem env s i)
  | del (i : Nat) (s : SysState) : Step s (deleteItem s i)

/-- States reachable from `s₀` by any sequence of operations. -/
def Reachable (s₀ s : SysState) : Prop := Relation.ReflTransGen Step s₀ s


/-! ### Scanner claims C2, C4, C6 -/

/-- Concrete intake file shared by the scanner claims. -/
def scanIntakePath : String := "/incoming/Song###Channel.mp3"

/-- Concrete intake content: no embedded tags. -/
def scanContent : AudioData := ⟨emptyFields, 3, 0, "1700000000.5"⟩

/-- Concrete scan environment: staging succeeds, artwork extraction finds
nothing, and the inference service is unavailable. -/
def scanEnvOk : ScanEnv :=
  { uuid := "u-1"
    mkdirFails := false
    copyFails := false
    errText := ""
    artworkOk := false
    geminiTitle := Option.none
    geminiArtist := Option.none
    geminiError := Option.some "Gemini API error: unavailable"
    geminiRaw := ""
    applyOk := true }

/-- Claim C6: a file whose fingerprint already has a record is skipped
entirely: no staging copy, no second record, the existing record (and the
whole state) left as-is. -/
theorem process_file_fingerprint_idempotent (env : ScanEnv) (s : SysState)
    (path : String) (content : AudioData)
    (hget : fsGet s.fs path = Option.some content)
    (hfp : s.items.any (fun it =>
      it.fileIdentifier == Option.some (fingerprintOf path content)) = true) :
    processFile env s path = s := by
  simp [processFile, hget, hfp]

/-- The record a previous run created for `scanIntakePath`. -/
def c6Item : Item :=
  ⟨1, scanIntakePath, "/data/staging/u-0/Song###Channel.mp3", "Song", "Channel", ".mp3",
    Option.some "Song", Option.some "Channel", Option.some "Song", Option.some "Channel",
    Option.none, Option.none, Option.none,
    Option.some (fingerprintOf scanIntakePath scanContent), Option.none, .pending⟩

/-- A state where the intake file's fingerprint already has a record. -/
def c6State : SysState := ⟨[(scanIntakePath, scanContent)], [c6Item], 2⟩

/-- Witness for `process_file_fingerprint_idempotent` at a concrete state. -/
theorem process_file_fingerprint_idempotent_witness :
    processFile scanEnvOk c6State scanIntakePath = c6State :=
  process_file_fingerprint_idempotent scanEnvOk c6State scanIntakePath scanContent
    (by decide) (by decide)

/-- Claim C2 (amended): a path already recorded under a DIFFERENT fingerprint
is treated as already processed — `process_file` returns with no staging and
no new record (the original-path guard at scanner.py:119 precedes any
staging). -/
theorem process_file_path_guard (env : ScanEnv) (s : SysState) (path : String)
    (content : AudioData)
    (hget : fsGet s.fs path = Option.some content)
    (hfp : s.items.any (fun it =>
      it.fileIdentifier == Option.some (fingerprintOf path content)) = false)
    (hpath : s.items.any (fun it => it.originalPath == path) = true) :
    processFile env s path = s := by
  simp [processFile, hget, hfp, hpath]

/-- A record for the same intake path under a different (older) fingerprint. -/
def c2Item : Item :=
  ⟨1, scanIntakePath, "/data/staging/u-0/Song###Channel.mp3", "Song", "Channel", ".mp3",
    Option.some "Song", Option.some "Channel", Option.some "Song", Option.some "Channel",
    Option.none, Option.none, Option.none, Option.some "fp-of-previous-version",
    Option.none, .done⟩

/-- A state where the path was seen before but the file has changed. -/
def c2State : SysState := ⟨[(scanIntakePath, scanContent)], [c2Item], 2⟩

/-- Claim C2 counterexample: the fingerprint of the intake file matches no
record but its path does; `process_file` leaves the state unchanged — no copy
is staged and no new record is created, contradicting "treated as a new
file". -/
theorem process_file_path_guard_cx :
    (∃ it ∈ c2State.items, it.originalPath = scanIntakePath) ∧
    (∀ it ∈ c2State.items,
      it.fileIdentifier ≠ Option.some (fingerprintOf scanIntakePath scanContent)) ∧
    processFile scanEnvOk c2State scanIntakePath = c2State := by
  refine ⟨by decide, by decide, by decide⟩

/-- Witness for `process_file_path_guard` at the concrete state. -/
theorem process_file_path_guard_witness :
    processFile scanEnvOk c2State scanIntakePath = c2State :=
  process_file_path_guard scanEnvOk c2State scanIntakePath scanContent
    (by decide) (by decide) (by decide)

/-- Claim C4 (amended): with a parseable "title###channel" name, no embedded
tags and a failing inference call, `process_file` stages a copy and creates a
`needs_manual` record whose `inferred_title` falls back to the parsed video
title and whose `inferred_artist` falls back to the channel (not empty
fields), with the error recorded and the intake file unchanged. -/
theorem process_file_needs_manual_fallback (env : ScanEnv) (s : SysState)
    (path vt ch err : String) (content : AudioData)
    (hget : fsGet s.fs path = Option.some content)
    (hfp : s.items.any (fun it =>
      it.fileIdentifier == Option.some (fingerprintOf path content)) = false)
    (hpath : s.items.any (fun it => it.originalPath == path) = false)
    (hmk : env.mkdirFails = false) (hcp : env.copyFails = false)
    (hparse : parseFilename (baseName path) = Option.some (vt, ch))
    (hti : pyStrip (content.tags.title.getD "") = "")
    (har : pyStrip (content.tags.artist.getD "") = "")
    (hgt : env.geminiTitle = Option.none)
    (hga : env.geminiArtist = Option.none)
    (hge : env.geminiError = Option.some err)
    (herr : err ≠ "") :
    processFile env s path =
      { fs := fsSet s.fs (stagedPathOf env path) content
        items := s.items ++ [⟨s.nextId, path, stagedPathOf env path, vt, ch,
          pySuffix (baseName path), Option.some vt, Option.some ch, Option.some vt,
          Option.some ch, Option.none,
          (if env.artworkOk then Option.some (artworkFileOf path content)
            else Option.none),
          Option.some ("Metadata detection failed: " ++ err),
          Option.some (fingerprintOf path content), Option.some env.geminiRaw,
          .needsManual⟩]
        nextId := s.nextId + 1 } ∧
    (stagedPathOf env path ≠ path →
      fsGet (processFile env s path).fs path = Option.some content) := by
  have herr' : (err == "") = false := beq_eq_false_iff_ne.2 herr
  have hmain : processFile env s path =
      { fs := fsSet s.fs (stagedPathOf env path) content
        items := s.items ++ [⟨s.nextId, path, stagedPathOf env path, vt, ch,
          pySuffix (baseName path), Option.some vt, Option.some ch, Option.some vt,
          Option.some ch, Option.none,
          (if env.artworkOk then Option.some (artworkFileOf path content)
            else Option.none),
          Option.some ("Metadata detection failed: " ++ err),
          Option.some (fingerprintOf path content), Option.some env.geminiRaw,
          .needsManual⟩]
        nextId := s.nextId + 1 } := by
    simp [processFile, createPendingItem, resolveStatus, hget, hfp, hpath, hmk, hcp,
      hparse, hti, har, hgt, hga, hge, herr', pyOrOpt, optTruthy, pyStrOr,
      stripIfTruthy]
  refine ⟨hmain, fun hne => ?_⟩
  rw [hmain]
  exact (fsGet_fsSet_ne s.fs content (fun e => hne e.symm)).trans hget


/-- A fresh state holding only the intake file of Scenario A. -/
def c4State : SysState := ⟨[(scanIntakePath, scanContent)], [], 1⟩

/-- Claim C4 counterexample: in Scenario A the created `needs_manual` record
has `inferred_title = "Song"` and `inferred_artist = "Channel"` (the parsed
filename fallbacks of scanner.py:205-206), not empty fields; the error is
recorded and the intake file is untouched. -/
theorem process_file_needs_manual_cx :
    ((processFile scanEnvOk c4State scanIntakePath).items.map
      (fun it => (it.inferredTitle, it.inferredArtist, it.errorMessage, it.status)))
      = [(Option.some "Song", Option.some "Channel",
          Option.some "Metadata detection failed: Gemini API error: unavailable",
          ItemStatus.needsManual)] ∧
    Option.some "Song" ≠ (Option.some "" : Option String) ∧
    fsGet (processFile scanEnvOk c4State scanIntakePath).fs scanIntakePath
      = Option.some scanContent := by
  refine ⟨by decide, by decide, by decide⟩

/-- Witness for `process_file_needs_manual_fallback` at the Scenario A state. -/
theorem process_file_needs_manual_fallback_witness :
    (processFile scanEnvOk c4State scanIntakePath).items =
      [⟨1, scanIntakePath, stagedPathOf scanEnvOk scanIntakePath, "Song", "Channel",
        ".mp3", Option.some "Song", Option.some "Channel", Option.some "Song",
        Option.some "Channel", Option.none, Option.none,
        Option.some "Metadata detection failed: Gemini API error: unavailable",
        Option.some (fingerprintOf scanIntakePath scanContent), Option.some "",
        .needsManual⟩] ∧
    fsGet (processFile scanEnvOk c4State scanIntakePath).fs scanIntakePath
      = Option.some scanContent := by
  have h := process_file_needs_manual_fallback scanEnvOk c4State scanIntakePath
    "Song" "Channel" "Gemini API error: unavailable" scanContent
    (by decide) (by decide) (by decide) rfl rfl (by decide) (by decide) (by decide)
    rfl rfl rfl (by decide)
  refine ⟨?_, h.2 (by decide)⟩
  rw [h.1]
  decide


/-! ### The intake-original invariant (claim C3) -/

/-- Keep a supplied field, fall back to the stored one (`write` is a merge). -/
def mergeOpt {α : Type} (new old : Option α) : Option α :=
  match new with
  | Option.some v => Option.some v
  | Option.none => old

/-- The merge-not-replace write of §4.2: supplied fields overwrite, the rest
stay. -/
def mergeTagFields (t f : TagFields) : TagFields :=
  ⟨mergeOpt f.title t.title, mergeOpt f.artist t.artist, mergeOpt f.album t.album,
    mergeOpt f.albumArtist t.albumArtist, mergeOpt f.genre t.genre,
    mergeOpt f.year t.year, mergeOpt f.trackNumber t.trackNumber,
    mergeOpt f.discNumber t.discNumber⟩

/-- A fully well-behaved codec: the save merges the supplied fields into the
tags and reading back returns exactly the stored tags, so round-trip
verification always passes. -/
def goodCodec : Codec where
  save := fun d f => Option.some { d with tags := mergeTagFields d.tags f }
  readBack := fun d => d.tags

/-- Scan environment whose staging-directory `mkdir` raises, so the error
record's `current_path` falls back to the intake path (scanner.py:278). -/
def c3ScanEnv : ScanEnv :=
  { uuid := "u-1"
    mkdirFails := true
    copyFails := false
    errText := "mkdir failed"
    artworkOk := false
    geminiTitle := Option.none
    geminiArtist := Option.none
    geminiError := Option.none
    geminiRaw := ""
    applyOk := true }

/-- The initial state: one untouched intake file, an empty table. -/
def c3Init : SysState := ⟨[(scanIntakePath, scanContent)], [], 1⟩

/-- The human edit that makes the error item confirmable. -/
def c3Edit : EditArgs := ⟨Option.some "T", Option.some "A", Option.some "G"⟩

/-- Confirm with a perfect codec but a failing library move. -/
def c3Confirm : ConfirmEnv := ⟨goodCodec, false⟩

/-- The state after scan (mkdir fails), edit, and confirm (move fails). -/
def c3Final : SysState :=
  confirmItem c3Confirm (updateItem (processFile c3ScanEnv c3Init scanIntakePath) 1 c3Edit) 1

/-- Claim C3 is falsified by the code: from a fresh intake file a reachable
three-step trace (scan whose staging mkdir raises, edit, confirm whose move
fails) ends with an item still in `error` — never `done` — whose intake
original has been rewritten in place, because the scanner's error record
points `current_path` at the intake path itself and `confirm_item` applies
`update_metadata_safe` to `current_path`. -/
theorem intake_original_mutated_before_done :
    Reachable c3Init c3Final ∧
    (∃ it ∈ c3Final.items, it.status ≠ ItemStatus.done ∧
      it.originalPath = scanIntakePath) ∧
    fsGet c3Final.fs scanIntakePath ≠ fsGet c3Init.fs scanIntakePath := by
  refine ⟨?_, by decide, by decide⟩
  exact Relation.ReflTransGen.tail
    (Relation.ReflTransGen.tail
      (Relation.ReflTransGen.single (Step.scan c3ScanEnv scanIntakePath c3Init))
      (Step.edit 1 c3Edit _))
    (Step.confirm c3Confirm 1 _)

end MetadataEditor
